import Mathlib

/-!
Verification development for the AIKnowledgeStudio repository.

The definitions below are a shallow embedding of the generation core:

* `src/unnamed/part_011` (`utils/audioUtils.ts`): `decode` / `encode`
  (base64 of raw bytes, `atob` / `btoa` over char-code strings) are
  modelled by `b64Decode` / `b64Encode` over `List Nat` byte values,
  with `none` standing for an `atob` exception.
* `src/services/geminiService.ts`: the error classifier and retry loop
  of `withRetry` (lines 73-93), the deterministic local generators
  `generateLocalOutline` / `generateLocalScriptChunk` (lines 112-163),
  and the retrieval selector `retrieveTopK` (lines 289-311 of the file,
  second document).
* `src/App.tsx`: the `createPodcastJob` orchestrator (lines 76-224) as a
  trace semantics: every `setJobs` call publishes one `PodcastJob` value
  to the per-notebook jobs map, and the published values are collected
  in order.  Remote-provider outcomes are abstracted by an `Oracle`; the
  unbounded `i--` synthesis-retry loop is run on explicit fuel.
* `src/unnamed/part_009` (`components/AudioStudio.tsx`):
  `getGenerationState` (lines 141-152).

JS floats are idealised as exact rationals (`ℚ`); the progress
arithmetic of the orchestrator (`0.2 + i * (0.7 / N)` and friends) is
exact at these magnitudes.  JS strings are Lean `String`s, with
substring / lower-casing helpers defined over `List Char` so that they
compute by kernel reduction.
-/

namespace AKS

/-- Prefix test on char lists: `hasPrefixL l p` is `true` iff `p` is a
prefix of `l` (used to model `String.prototype.startsWith`). -/
def hasPrefixL : List Char → List Char → Bool
  | _, [] => true
  | [], _ :: _ => false
  | a :: as, b :: bs => a == b && hasPrefixL as bs

/-- Substring test on char lists, modelling `String.prototype.includes`:
`hasSubstr hay pat = true` iff `pat` occurs contiguously in `hay`. -/
def hasSubstr : List Char → List Char → Bool
  | hay, pat =>
    hasPrefixL hay pat ||
      (match hay with
       | [] => false
       | _ :: t => hasSubstr t pat)

/-- Model of `String.prototype.includes`. -/
def jsIncludes (s pat : String) : Bool := hasSubstr s.toList pat.toList

/-- Model of `String.prototype.toLowerCase` (ASCII-faithful). -/
def lowerStr (s : String) : String := String.mk (s.toList.map Char.toLower)

/-- Split a char list at every character satisfying `p`, keeping empty
pieces, as `String.prototype.split` does per separator occurrence.  The
orchestration code always filters the pieces by `length > 2` afterwards,
which erases the only difference from splitting on the regex `\s+`. -/
def splitAtChar (p : Char → Bool) : List Char → List (List Char)
  | [] => [[]]
  | c :: rest =>
    if p c then [] :: splitAtChar p rest
    else match splitAtChar p rest with
      | [] => [[c]]
      | piece :: more => (c :: piece) :: more

/-- Model of `str.split(/\s+/)` composed with the `length > 2` filter of
`retrieveTopK` and of `s.split('\n')` (via `p := (· == '\n')`). -/
def splitStr (p : Char → Bool) (s : String) : List String :=
  (splitAtChar p s.toList).map String.mk

/-- Model of `String.prototype.indexOf` for a single character: the
index of the first occurrence, or `-1` when absent. -/
def jsIndexOfChar (s : String) (c : Char) : Int :=
  match s.toList.findIdx? (· == c) with
  | some i => (i : Int)
  | none => -1

/-- Model of `String.prototype.substring(start)` with the JS clamping of
a possibly negative start offset to `0`. -/
def jsSubstringFrom (s : String) (start : Int) : String :=
  String.mk (s.toList.drop start.toNat)

/-- Model of `String.prototype.substring(0, stop)`. -/
def jsSubstringTo (s : String) (stop : Nat) : String :=
  String.mk (s.toList.take stop)

/-! ## Base64 (`utils/audioUtils.ts`, src/unnamed/part_011)

`decode` is `atob` followed by reading char codes into a `Uint8Array`;
`encode` is building the char-code string and applying `btoa`.  Both are
modelled at the byte level: a byte is a `Nat < 256`, a base64 text is a
`List Char` over the standard alphabet with `'='` padding. -/

/-- The standard base64 alphabet used by `btoa` / `atob`. -/
def b64Alphabet : List Char :=
  "ABCDEFGHIJKLMNOPQRSTUVWXYZabcdefghijklmnopqrstuvwxyz0123456789+/".toList

/-- Character of a 6-bit value. -/
def encChar (n : Nat) : Char := b64Alphabet.getD n 'A'

/-- 6-bit value of an alphabet character (`none` for a non-alphabet
character, on which `atob` throws). -/
def decChar (c : Char) : Option Nat := b64Alphabet.findIdx? (· == c)

/-- `btoa` on a byte list: 3 bytes become 4 sextet characters, with
`'='` padding for a trailing group of 1 or 2 bytes. -/
def b64Encode : List Nat → List Char
  | [] => []
  | [a] => [encChar (a / 4), encChar (a % 4 * 16), '=', '=']
  | [a, b] => [encChar (a / 4), encChar (a % 4 * 16 + b / 16), encChar (b % 16 * 4), '=']
  | a :: b :: c :: rest =>
    encChar (a / 4) :: encChar (a % 4 * 16 + b / 16) ::
      encChar (b % 16 * 4 + c / 64) :: encChar (c % 64) :: b64Encode rest

/-- `atob` on a base64 text, producing the byte list; `none` models the
`InvalidCharacterError` thrown on malformed input.  A final 4-character
group may carry one or two `'='` padding characters. -/
def b64Decode : List Char → Option (List Nat)
  | [] => some []
  | c1 :: c2 :: c3 :: c4 :: rest =>
    if rest.isEmpty && c3 == '=' && c4 == '=' then
      match decChar c1, decChar c2 with
      | some s1, some s2 => some [s1 * 4 + s2 / 16]
      | _, _ => none
    else if rest.isEmpty && c4 == '=' then
      match decChar c1, decChar c2, decChar c3 with
      | some s1, some s2, some s3 => some [s1 * 4 + s2 / 16, s2 % 16 * 16 + s3 / 4]
      | _, _, _ => none
    else
      match decChar c1, decChar c2, decChar c3, decChar c4, b64Decode rest with
      | some s1, some s2, some s3, some s4, some bs =>
        some ((s1 * 4 + s2 / 16) :: (s2 % 16 * 16 + s3 / 4) :: (s3 % 4 * 64 + s4) :: bs)
      | _, _, _, _, _ => none
  | _ => none

theorem decChar_encChar {n : Nat} (h : n < 64) : decChar (encChar n) = some n := by
  interval_cases n <;> rfl

theorem encChar_beq_pad {n : Nat} (h : n < 64) : (encChar n == '=') = false := by
  interval_cases n <;> rfl

/-- Round trip: decoding an encoded byte list recovers it exactly. -/
theorem b64_roundtrip : ∀ l : List Nat, (∀ x ∈ l, x < 256) →
    b64Decode (b64Encode l) = some l
  | [], _ => rfl
  | [a], h => by
    have ha : a < 256 := h a (by simp)
    have h1 : a / 4 < 64 := by omega
    have h2 : a % 4 * 16 < 64 := by omega
    simp only [b64Encode, b64Decode, List.isEmpty_nil, Bool.true_and, beq_self_eq_true,
      Bool.and_true, if_true, decChar_encChar h1, decChar_encChar h2]
    have e1 : a / 4 * 4 + a % 4 * 16 / 16 = a := by omega
    rw [e1]
  | [a, b], h => by
    have ha : a < 256 := h a (by simp)
    have hb : b < 256 := h b (by simp)
    have h1 : a / 4 < 64 := by omega
    have h2 : a % 4 * 16 + b / 16 < 64 := by omega
    have h3 : b % 16 * 4 < 64 := by omega
    simp only [b64Encode, b64Decode, List.isEmpty_nil, encChar_beq_pad h3, Bool.true_and,
      Bool.and_false, Bool.false_and, Bool.false_or, if_false, beq_self_eq_true, Bool.and_true,
      if_true, decChar_encChar h1, decChar_encChar h2, decChar_encChar h3]
    have e1 : a / 4 * 4 + (a % 4 * 16 + b / 16) / 16 = a := by omega
    have e2 : (a % 4 * 16 + b / 16) % 16 * 16 + b % 16 * 4 / 4 = b := by omega
    rw [e1, e2]
    simp
  | a :: b :: c :: rest, h => by
    have ha : a < 256 := h a (by simp)
    have hb : b < 256 := h b (by simp)
    have hc : c < 256 := h c (by simp)
    have h1 : a / 4 < 64 := by omega
    have h2 : a % 4 * 16 + b / 16 < 64 := by omega
    have h3 : b % 16 * 4 + c / 64 < 64 := by omega
    have h4 : c % 64 < 64 := by omega
    have ih := b64_roundtrip rest (fun x hx => h x (by simp [hx]))
    show b64Decode (encChar (a / 4) :: encChar (a % 4 * 16 + b / 16) ::
      encChar (b % 16 * 4 + c / 64) :: encChar (c % 64) :: b64Encode rest) = _
    simp only [b64Decode, encChar_beq_pad h3, encChar_beq_pad h4, Bool.and_false,
      Bool.false_and, if_false, decChar_encChar h1, decChar_encChar h2, decChar_encChar h3,
      decChar_encChar h4, ih]
    have e1 : a / 4 * 4 + (a % 4 * 16 + b / 16) / 16 = a := by omega
    have e2 : (a % 4 * 16 + b / 16) % 16 * 16 + (b % 16 * 4 + c / 64) / 4 = b := by omega
    have e3 : (b % 16 * 4 + c / 64) % 4 * 64 + c % 64 = c := by omega
    rw [e1, e2, e3]
    simp

/-- Model of `audioChunks.map(c => decode(c))` in the FINALIZING step:
`none` when any `decode` call throws. -/
def decodeAll : List String → Option (List (List Nat))
  | [] => some []
  | c :: cs =>
    match b64Decode c.toList, decodeAll cs with
    | some bytes, some rest => some (bytes :: rest)
    | _, _ => none

/-- The audio-merge step of `createPodcastJob` (src/App.tsx lines
191-199): decode every base64 chunk, lay the byte arrays out in input
order in one buffer sized by the summed lengths (`mergedAudio.set(data,
offset)`), and re-`encode`.  `none` models a thrown exception. -/
def mergeChunks (chunks : List String) : Option String :=
  match decodeAll chunks with
  | some decoded => some (String.mk (b64Encode decoded.flatten))
  | none => none

theorem decodeAll_encoded : ∀ bs : List (List Nat), (∀ l ∈ bs, ∀ x ∈ l, x < 256) →
    decodeAll (bs.map fun l => String.mk (b64Encode l)) = some bs
  | [], _ => rfl
  | l :: rest, h => by
    have hl := b64_roundtrip l (h l (by simp))
    have ih := decodeAll_encoded rest (fun m hm => h m (by simp [hm]))
    simp only [List.map_cons, decodeAll]
    have : (String.mk (b64Encode l)).toList = b64Encode l := rfl
    rw [this, hl, ih]

/-! ## Error classifier and retry loop (`withRetry`,
src/services/geminiService.ts lines 73-93) -/

/-- The transient/quota test of `withRetry` (line 80): the message
contains `"429"`, or case-insensitively `"quota"`, `"exhausted"` or
`"limit"`.  `true` is the transient classification. -/
def isQuotaMsg (msg : String) : Bool :=
  jsIncludes msg "429" || jsIncludes (lowerStr msg) "quota" ||
    jsIncludes (lowerStr msg) "exhausted" || jsIncludes (lowerStr msg) "limit"

/-- Terminal outcome of `withRetry`: the dedicated
`GeminiQuotaError("Quota failover triggered.")` or the re-thrown
original error. -/
inductive RetryErr
  | quota
  | permanent (msg : String)
deriving DecidableEq, Repr

/-- Observable behaviour of one `withRetry` execution: final result,
number of `fn` calls made, and the backoff delays awaited in order. -/
structure RetryTrace where
  result : Except RetryErr String
  calls : Nat
  delays : List ℚ

/-- The `withRetry` loop (src/services/geminiService.ts lines 73-93).
`fn n` is the outcome of the `n`-th call of `fn` (`Except.error msg`
models a throw) and `jitter n` the `Math.random() * 1000` sample added
to the `n`-th backoff delay; the loop variable `attempt` doubles as the
call counter, and `fuel = retries - attempt` makes the bounded `while`
explicit.  The `fuel = 0` branch is the trailing `return fn()` after
the loop, which runs outside any try/catch (reachable only when
`retries = 0`).  `attempt + 1 < retries` is the JS test
`attempt < retries - 1`. -/
def withRetryGo (fn : Nat → Except String String) (jitter : Nat → ℚ) (initialDelay : ℚ)
    (retries : Nat) : Nat → Nat → List ℚ → RetryTrace
  | 0, attempt, delays =>
    match fn attempt with
    | .ok v => ⟨.ok v, attempt + 1, delays⟩
    | .error e => ⟨.error (.permanent e), attempt + 1, delays⟩
  | fuel + 1, attempt, delays =>
    match fn attempt with
    | .ok v => ⟨.ok v, attempt + 1, delays⟩
    | .error e =>
      if isQuotaMsg e && decide (attempt + 1 < retries) then
        withRetryGo fn jitter initialDelay retries fuel (attempt + 1)
          (delays ++ [initialDelay * 2 ^ attempt + jitter attempt])
      else if isQuotaMsg e then ⟨.error .quota, attempt + 1, delays⟩
      else ⟨.error (.permanent e), attempt + 1, delays⟩

/-- `withRetry(fn)` at the default arguments `retries = 5`,
`initialDelay = 3000`. -/
def withRetry (fn : Nat → Except String String) (jitter : Nat → ℚ) : RetryTrace :=
  withRetryGo fn jitter 3000 5 5 0 []

/-! ## Retrieval/grounding selector (`retrieveTopK`,
src/services/geminiService.ts lines 289-311) -/

structure SourceDoc where
  id : String
  title : String
  content : String
deriving DecidableEq

structure Notebook where
  id : String
  title : String
  sources : List SourceDoc
deriving DecidableEq

/-- `query.toLowerCase().split(/\s+/).filter(t => t.length > 2)`. -/
def queryTermsOf (query : String) : List String :=
  (splitStr Char.isWhitespace (lowerStr query)).filter (fun t => t.length > 2)

/-- Score of one source: `queryTerms.reduce((acc, term) => acc +
(content.includes(term) ? 1 : 0), 0)` over the lower-cased content. -/
def scoreSource (queryTerms : List String) (s : SourceDoc) : Nat :=
  queryTerms.countP (fun term => jsIncludes (lowerStr s.content) term)

/-- Stable insertion, descending by score: models
`Array.prototype.sort((a, b) => b.score - a.score)`. -/
def insertByScoreDesc (x : SourceDoc × Nat) : List (SourceDoc × Nat) → List (SourceDoc × Nat)
  | [] => [x]
  | y :: ys => if y.2 > x.2 then y :: insertByScoreDesc x ys else x :: y :: ys

/-- Stable sort, descending by score. -/
def sortByScoreDesc : List (SourceDoc × Nat) → List (SourceDoc × Nat)
  | [] => []
  | x :: xs => insertByScoreDesc x (sortByScoreDesc xs)

/-- The `SOURCE <n> (<title>):\n<content>` blocks joined by blank
lines. -/
def fmtSourceBlock (ss : List SourceDoc) : String :=
  String.intercalate "\n\n" (ss.mapIdx fun i s =>
    "SOURCE " ++ toString (i + 1) ++ " (" ++ s.title ++ "):\n" ++ s.content)

/-- The neutral instruction returned when the notebook has no sources at
all. -/
def noRelevantMsg : String :=
  "No directly relevant sources were found. Answer using careful reasoning and state uncertainty clearly."

/-- `retrieveTopK(notebook, query, k)` (src/services/geminiService.ts
lines 289-311). -/
def retrieveTopK (nb : Notebook) (query : String) (k : Nat) : String :=
  let queryTerms := queryTermsOf query
  let scoredSources := nb.sources.map (fun s => (s, scoreSource queryTerms s))
  let topK := (sortByScoreDesc (scoredSources.filter
    (fun s => decide (s.2 > 0) || decide (nb.sources.length ≤ 2)))).take k
  if topK.length = 0 then
    if nb.sources.length > 0 then fmtSourceBlock (nb.sources.take 3)
    else noRelevantMsg
  else fmtSourceBlock ((topK.map (fun tk => tk.1)))

/-! ## Claim C9: audio-merge postcondition -/

/-- C9: for every list of base64-encoded chunks (each chunk the encoding
of a byte list) the merge step completes without throwing; the decoded
merged output is exactly the input chunks' bytes laid out in input
order, hence its byte length equals the sum of the decoded input chunk
lengths; the empty input list yields the empty (silent) result. -/
theorem c9_merge_postcondition (bs : List (List Nat)) (hb : ∀ l ∈ bs, ∀ x ∈ l, x < 256) :
    mergeChunks (bs.map fun l => String.mk (b64Encode l)) =
      some (String.mk (b64Encode bs.flatten)) ∧
    b64Decode (b64Encode bs.flatten) = some bs.flatten ∧
    bs.flatten.length = (bs.map List.length).sum ∧
    mergeChunks [] = some "" := by
  refine ⟨?_, ?_, List.length_flatten bs, rfl⟩
  · unfold mergeChunks
    rw [decodeAll_encoded bs hb]
  · apply b64_roundtrip
    intro x hx
    rw [List.mem_flatten] at hx
    obtain ⟨l, hl, hxl⟩ := hx
    exact hb l hl x hxl

/-- Witness for C9 at a concrete chunk list. -/
theorem c9_merge_postcondition_witness :
    (∀ l ∈ [[104, 105], [33]], ∀ x ∈ l, x < 256) ∧
    mergeChunks (([[104, 105], [33]] : List (List Nat)).map fun l => String.mk (b64Encode l)) =
      some (String.mk (b64Encode ([[104, 105], [33]] : List (List Nat)).flatten)) :=
  ⟨by decide, (c9_merge_postcondition [[104, 105], [33]] (by decide)).1⟩

/-! ## Claim C7: error classification and retry policy -/

/-- C7: classification is a total deterministic function of the error
message; a message containing "429", or case-insensitively "quota",
classifies transient; a first-call error matching none of the transient
markers is re-thrown immediately without any retry; a persistently
transient error is retried with exponentially doubling backoff
(`3000 * 2 ^ attempt` plus jitter) and a capped attempt count of 5. -/
theorem c7_classify_retry :
    (∀ msg : String, isQuotaMsg msg = true ∨ isQuotaMsg msg = false) ∧
    (∀ msg : String, jsIncludes msg "429" = true → isQuotaMsg msg = true) ∧
    (∀ msg : String, jsIncludes (lowerStr msg) "quota" = true → isQuotaMsg msg = true) ∧
    (∀ (fn : Nat → Except String String) (jitter : Nat → ℚ) (e : String),
      fn 0 = .error e → isQuotaMsg e = false →
      withRetry fn jitter = ⟨.error (.permanent e), 1, []⟩) ∧
    (∀ (jitter : Nat → ℚ) (e : String), isQuotaMsg e = true →
      withRetry (fun _ => .error e) jitter =
        ⟨.error .quota, 5,
          [3000 * 2 ^ 0 + jitter 0, 3000 * 2 ^ 1 + jitter 1,
           3000 * 2 ^ 2 + jitter 2, 3000 * 2 ^ 3 + jitter 3]⟩) := by
  refine ⟨fun msg => Bool.eq_false_or_eq_true _, ?_, ?_, ?_, ?_⟩
  · intro msg h
    unfold isQuotaMsg
    rw [h]
    simp
  · intro msg h
    unfold isQuotaMsg
    rw [h]
    simp
  · intro fn jitter e hfn he
    unfold withRetry
    rw [withRetryGo, hfn]
    simp [he]
  · intro jitter e he
    unfold withRetry
    rw [withRetryGo]
    simp only [he, Bool.true_and]
    norm_num
    rw [withRetryGo]
    simp only [he, Bool.true_and]
    norm_num
    rw [withRetryGo]
    simp only [he, Bool.true_and]
    norm_num
    rw [withRetryGo]
    simp only [he, Bool.true_and]
    norm_num
    rw [withRetryGo]
    simp only [he, Bool.true_and]
    norm_num

/-- Witness for C7: a 429 message classifies transient; a non-matching
message is re-thrown after exactly one call with no backoff; a quota
message is retried five times with doubling delays. -/
theorem c7_classify_retry_witness :
    jsIncludes "HTTP 429 from provider" "429" = true ∧
    isQuotaMsg "HTTP 429 from provider" = true ∧
    ((fun _ : Nat => (Except.error "schema mismatch" : Except String String)) 0 =
        (Except.error "schema mismatch" : Except String String) ∧
      isQuotaMsg "schema mismatch" = false) ∧
    withRetry (fun _ => .error "schema mismatch") (fun _ => (0 : ℚ)) =
      ⟨.error (.permanent "schema mismatch"), 1, []⟩ ∧
    (isQuotaMsg "quota exceeded" = true ∧
      withRetry (fun _ => .error "quota exceeded") (fun _ => (0 : ℚ)) =
        ⟨.error .quota, 5,
          [3000 * 2 ^ 0 + (0 : ℚ), 3000 * 2 ^ 1 + (0 : ℚ),
           3000 * 2 ^ 2 + (0 : ℚ), 3000 * 2 ^ 3 + (0 : ℚ)]⟩) :=
  ⟨by decide,
   c7_classify_retry.2.1 _ (by decide),
   ⟨rfl, by decide⟩,
   c7_classify_retry.2.2.2.1 _ _ _ rfl (by decide),
   ⟨by decide, c7_classify_retry.2.2.2.2 (fun _ => (0 : ℚ)) _ (by decide)⟩⟩

/-! ## Claim C8: grounding selector fallback policy -/

/-- A 3-source notebook none of whose sources contains any term of the
query "zzzz". -/
def c8Notebook : Notebook :=
  ⟨"nb-c8", "Vault", [⟨"s1", "Alpha", "aaa"⟩, ⟨"s2", "Beta", "bbb"⟩, ⟨"s3", "Gamma", "ccc"⟩]⟩

/-- C8 counterexample: the claim says that with more than 2 sources and
no source scoring above 0 the selector returns the neutral "no relevant
source found" instruction; on this concrete 3-source notebook the code
instead returns the first-three-sources content block. -/
theorem c8_counterexample :
    retrieveTopK c8Notebook "zzzz" 3 = fmtSourceBlock c8Notebook.sources ∧
    retrieveTopK c8Notebook "zzzz" 3 ≠ noRelevantMsg := by
  constructor <;> decide

/-- C8 amended: when no source scores above 0 and the notebook has more
than 2 sources, the selector returns the content block of the first
`min 3 n` sources (not the neutral instruction); the neutral instruction
is returned exactly when the notebook has no sources; and the small-vault
half of the claim holds as stated: with `k = 3` and exactly 2 sources
neither containing any query term, both sources' content is returned. -/
theorem c8_amended :
    (∀ (nb : Notebook) (query : String) (k : Nat),
      2 < nb.sources.length →
      (∀ s ∈ nb.sources, scoreSource (queryTermsOf query) s = 0) →
      retrieveTopK nb query k = fmtSourceBlock (nb.sources.take 3)) ∧
    (∀ (nb : Notebook) (query : String) (k : Nat), nb.sources = [] →
      retrieveTopK nb query k = noRelevantMsg) ∧
    (∀ (nb : Notebook) (query : String) (s1 s2 : SourceDoc),
      nb.sources = [s1, s2] →
      scoreSource (queryTermsOf query) s1 = 0 →
      scoreSource (queryTermsOf query) s2 = 0 →
      retrieveTopK nb query 3 = fmtSourceBlock [s1, s2]) := by
  refine ⟨?_, ?_, ?_⟩
  · intro nb query k hn hs
    have hfil : (nb.sources.map fun s => (s, scoreSource (queryTermsOf query) s)).filter
        (fun s => decide (s.2 > 0) || decide (nb.sources.length ≤ 2)) = [] := by
      rw [List.filter_eq_nil_iff]
      intro p hmem
      rw [List.mem_map] at hmem
      obtain ⟨src, hsrc, rfl⟩ := hmem
      simp [hs src hsrc, Nat.not_le.mpr hn]
    simp only [retrieveTopK]
    rw [hfil]
    simp [sortByScoreDesc]
    intro h
    rw [h] at hn
    simp at hn
  · intro nb query k hsrc
    simp only [retrieveTopK]
    rw [hsrc]
    simp [sortByScoreDesc, noRelevantMsg]
  · intro nb query s1 s2 hsrc h1 h2
    simp only [retrieveTopK]
    rw [hsrc]
    simp [h1, h2, sortByScoreDesc, insertByScoreDesc]

/-- Witness for C8 amended at concrete notebooks. -/
theorem c8_amended_witness :
    ((⟨"n2", "T", [⟨"s1", "A", "aaa"⟩, ⟨"s2", "B", "bbb"⟩]⟩ : Notebook).sources =
        [⟨"s1", "A", "aaa"⟩, ⟨"s2", "B", "bbb"⟩] ∧
      scoreSource (queryTermsOf "zzzz") ⟨"s1", "A", "aaa"⟩ = 0 ∧
      scoreSource (queryTermsOf "zzzz") ⟨"s2", "B", "bbb"⟩ = 0) ∧
    retrieveTopK ⟨"n2", "T", [⟨"s1", "A", "aaa"⟩, ⟨"s2", "B", "bbb"⟩]⟩ "zzzz" 3 =
      fmtSourceBlock [⟨"s1", "A", "aaa"⟩, ⟨"s2", "B", "bbb"⟩] :=
  ⟨⟨rfl, by decide, by decide⟩,
   c8_amended.2.2 _ "zzzz" _ _ rfl (by decide) (by decide)⟩

/-! ## Data model (src/types.ts, src/unnamed/part_000) -/

/-- `PodcastJobState` (src/unnamed/part_000 lines 39-50). -/
inductive PodcastJobState
  | QUEUED | PREFLIGHT | OUTLINING | SCRIPTING | SYNTHESIZING | FINALIZING
  | READY | FAILED | QUOTA_PAUSED | QUOTA_BLOCKED | OPTIMIZING
deriving DecidableEq

/-- `GenerationMode` (src/unnamed/part_000 line 52). -/
inductive GenerationMode
  | PRIMARY | OPTIMIZED | FAILSAFE
deriving DecidableEq

/-- Position of a mode along the PRIMARY → OPTIMIZED → FAILSAFE
degradation order. -/
def GenerationMode.rank : GenerationMode → Nat
  | .PRIMARY => 0
  | .OPTIMIZED => 1
  | .FAILSAFE => 2

/-- `HostPersonality` (src/unnamed/part_000 line 37). -/
inductive HostPersonality
  | neutral | curious | analytical | warm | debate | visionary
deriving DecidableEq

/-- `TranscriptSegment` as produced by the generators: speaker label,
text, and millisecond offsets. -/
structure TranscriptSegment where
  id : String
  speaker : String
  text : String
  startMs : Nat
  endMs : Nat
deriving DecidableEq

/-- An `AudioChapter` as built in `createPodcastJob` (src/App.tsx lines
137-143). -/
structure AudioChapter where
  id : String
  title : String
  startMs : Nat
  endMs : Nat
  summary : String
deriving DecidableEq

/-- The `audio` result bundle of a completed job (src/unnamed/part_000
lines 62-67). -/
structure AudioBundle where
  audio : String
  chapters : List AudioChapter
  transcript : List TranscriptSegment
  artworkUrl : Option String
deriving DecidableEq

/-- `PodcastJob` (src/unnamed/part_000 lines 56-75).  Fields that a JS
object may simply lack (`undefined`) are `Option`-typed: the final-job
literal in `createPodcastJob` spreads the closure-captured `jobs`
snapshot, which for a fresh notebook is `undefined`, so even `jobId` can
be absent from a stored job. -/
structure PodcastJob where
  jobId : Option String
  notebookId : Option String
  state : PodcastJobState
  progress : ℚ
  mode : GenerationMode
  audio : Option AudioBundle
  error : Option String
  createdAt : Option Nat
  personality : Option HostPersonality
  completedChunks : Nat
  totalChunks : Nat
  partialAudioBuffers : Option (List String)
  partialTranscript : Option (List TranscriptSegment)
deriving DecidableEq

/-- One entry of the parsed outline JSON `{ part, topics }`. -/
structure OutlinePart where
  part : Nat
  topics : List String
deriving DecidableEq

/-- The parsed outline object `{ outline: [...] }`. -/
structure Outline where
  outline : List OutlinePart
deriving DecidableEq

/-- Result of a script-chunk generation `{ script, transcript }`. -/
structure ChunkResult where
  script : String
  transcript : List TranscriptSegment
deriving DecidableEq

/-! ## Local fallback generators (`GeminiService`,
src/services/geminiService.ts lines 107-163) -/

/-- `generateLocalOutline` (lines 112-122): the fixed 5-segment outline
parameterised by the notebook title. -/
def generateLocalOutline (nb : Notebook) : Outline :=
  ⟨[⟨1, ["Introduction & Foundational Hook", "Overview of " ++ nb.title]⟩,
    ⟨2, ["The First Pillar: Core Methodology", "Unpacking primary grounded logic"]⟩,
    ⟨3, ["Synthesizing the Data Stream", "Analyzing key source findings"]⟩,
    ⟨4, ["Operational Impact", "Real-world transformation potential"]⟩,
    ⟨5, ["The Neural Future", "Forward-looking statements and closing"]⟩]⟩

/-- `generateLocalScriptChunk` (lines 128-163): deterministic dialogue
from 5 templates cycled by segment index, with a source selected by
`partIndex % (sources.length || 1)` and a 120-character key detail; the
transcript is parsed back out of the `Speaker: text` lines with evenly
spaced timestamps. -/
def generateLocalScriptChunk (nb : Notebook) (outline : Outline) (partIndex : Nat) :
    ChunkResult :=
  let source := nb.sources.get? (partIndex % (if nb.sources.length = 0 then 1 else nb.sources.length))
  let title := match source with
    | some s => if s.title = "" then "the primary dataset" else s.title
    | none => "the primary dataset"
  let content := match source with
    | some s => if s.content = "" then "the core grounded documentation synced to this vault." else s.content
    | none => "the core grounded documentation synced to this vault."
  let keyDetail := jsSubstringTo content 120
  let templates : List String :=
    ["Alex: Welcome back. Today, we’re breaking down " ++ nb.title ++ ", using real sources to understand what’s actually changing — and what matters.\nJordan: Yeah, because once you look past the headlines, there’s a much bigger story here.\nAlex: Exactly. We’ll walk through what’s new, why it matters, and where this is likely heading next.",
     "Alex: Let’s start with the core idea here: " ++ title ++ ". At first glance, this sounds straightforward.\nJordan: But when you dig into the source material, there’s more going on. Looking at the data on " ++ keyDetail ++ "... this change affects the entire system.\nAlex: So this isn’t just a feature update — it reshapes the behavior of the whole unit.\nJordan: Exactly. That signals a longer-term shift.",
     "Alex: Now, diving deeper into the analysis. Specifically, how these pillars interact.\nJordan: Right, in " ++ title ++ ", the documentation highlights efficiency as the primary metric.\nAlex: And without that baseline, the rest of the synthesis just doesn't hold up.\nJordan: It's a foundational requirement that often gets overlooked.",
     "Alex: What about the human element? How does this impact the workflow?\nJordan: The sources are clear—it's about removing friction. The material explicitly mentions " ++ keyDetail ++ " as a pivot point.\nAlex: So it's an invisible upgrade that fundamentally changes how we interact with the vault.",
     "Alex: So stepping back, the big takeaway is this: the logic of " ++ nb.title ++ " is sound and grounded.\nJordan: And if this trend continues, we’re likely to see a complete evolution of this space within the year.\nAlex: We’ll keep tracking this as it evolves. Thanks for joining me, Jordan.\nJordan: My pleasure."]
  let script := templates.getD (partIndex % templates.length) ""
  let transcript := (splitStr (· == '\n') script).mapIdx (fun i line =>
    let isAlex := hasPrefixL line.toList "Alex".toList
    let text := jsSubstringFrom line (jsIndexOfChar line ':' + 2)
    let baseStart := partIndex * 180000
    let lineOffset := i * 12000
    { id := "local-" ++ toString partIndex ++ "-" ++ toString i,
      speaker := if isAlex then "Alex" else "Jordan",
      text := text,
      startMs := baseStart + lineOffset,
      endMs := baseStart + lineOffset + 11000 })
  ⟨script, transcript⟩

/-! ## The generation orchestrator (`createPodcastJob`, src/App.tsx
lines 76-224)

Remote-provider behaviour is abstracted by an `Oracle`; `createPodcastJob`
then runs deterministically.  Every `setJobs` call appends the published
per-notebook job entry to a trace, and every provider request (remote or
local-fallback) is recorded as a `GenEvent`. -/

/-- One provider request issued by the orchestrator, with the segment
index where applicable. -/
inductive GenEvent
  | remoteOutline
  | artwork
  | remoteScript (i : Nat)
  | localScript (i : Nat)
  | tts (i : Nat)
deriving DecidableEq

/-- The segment index of an event (`none` for the outline-phase
requests). -/
def GenEvent.segIdx? : GenEvent → Option Nat
  | .remoteOutline => none
  | .artwork => none
  | .remoteScript i => some i
  | .localScript i => some i
  | .tts i => some i

/-- Abstraction of the remote provider for one orchestrator run.
`outlineFails` models `generateOutline` throwing (including a JSON parse
error inside it); `outlineMalformed` models a parse that succeeded but
produced a shape on which the chapter derivation throws;
`scriptFails i` models `generateScriptChunk` throwing at segment `i`;
`ttsOutcome n` is the result of the `n`-th `generateTTSChunk` call of
the run (`none` models a throw — src/services/geminiService.ts lines
253-273 throw `"TTS failed."` when no audio part is returned, and
`withRetry` rethrows). -/
structure Oracle where
  outlineFails : Bool
  outlineMalformed : Bool
  outlineValue : Outline
  artworkValue : Option String
  scriptFails : Nat → Bool
  scriptValue : Nat → ChunkResult
  ttsOutcome : Nat → Option String

/-- Mutable context of one `createPodcastJob` run: the `currentMode`
local, the live jobs-map entry for this notebook, the published trace,
the recorded provider events, the `audioChunks` / `transcript`
accumulators, and the count of TTS calls made so far. -/
structure OrchSt where
  currentMode : GenerationMode
  jobsEntry : PodcastJob
  trace : List PodcastJob
  events : List GenEvent
  audioChunks : List String
  transcript : List TranscriptSegment
  ttsCalls : Nat

/-- Publish one job value: `setJobs(prev => ({ ...prev, [notebookId]:
j }))` — the live map entry becomes `j` and observers see it. -/
def publishJob (st : OrchSt) (j : PodcastJob) : OrchSt :=
  { st with jobsEntry := j, trace := st.trace ++ [j] }

/-- `setJobState` (src/App.tsx lines 104-111): remap `FAILED` to
`OPTIMIZING`, then publish the entry with the given state and progress
and the current mode. -/
def setJobState (st : OrchSt) (s : PodcastJobState) (p : ℚ) : OrchSt :=
  let safeState := if s = .FAILED then .OPTIMIZING else s
  publishJob st
    { st.jobsEntry with state := safeState, progress := p, mode := st.currentMode }

/-- The absolute-failsafe catch handler (src/App.tsx lines 219-223):
`setJobState('OPTIMIZING', 0.5, { error: undefined })`. -/
def failsafePublish (st : OrchSt) : OrchSt :=
  publishJob st
    { st.jobsEntry with
      state := .OPTIMIZING
      progress := 0.5
      mode := st.currentMode
      error := none }

/-- The SCRIPTING body of the per-segment loop (src/App.tsx lines
153-163): remote script generation when `currentMode` is `PRIMARY`
(downgrading to `OPTIMIZED` and substituting the local chunk if it
throws), the local generator otherwise. -/
def scriptStep (o : Oracle) (nb : Notebook) (outline : Outline) (i : Nat) (st : OrchSt) :
    OrchSt × ChunkResult :=
  if st.currentMode = .PRIMARY then
    if o.scriptFails i then
      ({ st with currentMode := .OPTIMIZED,
                 events := st.events ++ [.remoteScript i, .localScript i] },
       generateLocalScriptChunk nb outline i)
    else
      ({ st with events := st.events ++ [.remoteScript i] }, o.scriptValue i)
  else
    ({ st with events := st.events ++ [.localScript i] }, generateLocalScriptChunk nb outline i)

/-- The per-segment loop of `createPodcastJob` (src/App.tsx lines
150-189) run on explicit fuel (one unit per loop-body execution, since
the `i--`-on-TTS-failure branch makes the loop unbounded).  Returns the
final context and whether the loop finished (`i` reached the outline
length). -/
def segLoop (o : Oracle) (nb : Notebook) (outline : Outline) :
    Nat → Nat → OrchSt → OrchSt × Bool
  | 0, i, st => if i < outline.outline.length then (st, false) else (st, true)
  | fuel + 1, i, st =>
    if i < outline.outline.length then
      let N := outline.outline.length
      let st1 := setJobState st .SCRIPTING (0.2 + (i : ℚ) * (0.7 / (N : ℚ)))
      let sc := scriptStep o nb outline i st1
      let st3 := setJobState sc.1 .SYNTHESIZING (0.25 + (i : ℚ) * (0.7 / (N : ℚ)))
      let st4 := { st3 with events := st3.events ++ [.tts i], ttsCalls := st3.ttsCalls + 1 }
      match o.ttsOutcome st3.ttsCalls with
      | some audioBase64 =>
        let chunks := st4.audioChunks ++ [audioBase64]
        let tr := st4.transcript ++ sc.2.transcript
        let committed : PodcastJob :=
          { st4.jobsEntry with
            completedChunks := i + 1
            partialAudioBuffers := some chunks
            partialTranscript := some tr }
        let st5 : OrchSt :=
          publishJob { st4 with audioChunks := chunks, transcript := tr } committed
        segLoop o nb outline fuel (i + 1) st5
      | none =>
        let st5 := setJobState st4 .OPTIMIZING (0.25 + (i : ℚ) * (0.7 / (N : ℚ)))
        segLoop o nb outline fuel i st5
    else (st, true)

/-- Spread base used by the final-job literal when the closure-captured
`jobs` snapshot holds no entry for the notebook (`{ ...undefined }`):
every field the literal does not set explicitly is absent.  The non-
optional fields are given placeholder values; the final-job literal
overwrites all of them. -/
def undefinedJob : PodcastJob :=
  { jobId := none, notebookId := none, state := .QUEUED, progress := 0,
    mode := .PRIMARY, audio := none, error := none, createdAt := none,
    personality := none, completedChunks := 0, totalChunks := 0,
    partialAudioBuffers := none, partialTranscript := none }

/-- Result of one `createPodcastJob` run: the published job entries in
order, the provider events in order, the outline driving the segment
loop, whether the run reached the READY publish, and whether the
absolute-failsafe catch handler ran. -/
structure RunResult where
  trace : List PodcastJob
  events : List GenEvent
  outlineUsed : Outline
  completed : Bool
  failsafe : Bool

/-- Intermediate result of the OUTLINING phase. -/
structure OutlinePhase where
  st : OrchSt
  outline : Outline
  artwork : Option String
  usedRemote : Bool

/-- The OUTLINING phase of `createPodcastJob` (src/App.tsx lines
116-135): skipped entirely on a resumed job (`completedChunks ≠ 0`, the
local outline is substituted); otherwise the remote outline and artwork
are requested in `PRIMARY` mode — any throw silently downgrades to
`OPTIMIZED` with the local outline — and the local outline is used
directly in a degraded mode. -/
def outlinePhase (o : Oracle) (nb : Notebook) (completedChunks : Nat) (st1 : OrchSt) :
    OutlinePhase :=
  if completedChunks = 0 then
    let stA := setJobState st1 .OUTLINING 0.15
    if stA.currentMode = .PRIMARY then
      let stB := { stA with events := stA.events ++ [.remoteOutline, .artwork] }
      if o.outlineFails then
        ⟨{ stB with currentMode := .OPTIMIZED }, generateLocalOutline nb, none, false⟩
      else ⟨stB, o.outlineValue, o.artworkValue, true⟩
    else ⟨stA, generateLocalOutline nb, none, false⟩
  else ⟨st1, generateLocalOutline nb, none, false⟩

/-- `isResume` (src/App.tsx line 81): the previous job is resumed when
it sits in `QUOTA_PAUSED` or `OPTIMIZING`. -/
def isResumeOf (snapshot : Option PodcastJob) : Bool :=
  match snapshot with
  | some e => e.state == .QUOTA_PAUSED || e.state == .OPTIMIZING
  | none => false

/-- The `initialJob` literal of `createPodcastJob` (src/App.tsx lines
84-96).  `||`-defaults become `getD`; an absent field of the snapshot
is `none`. -/
def mkInitialJob (snapshot : Option PodcastJob) (nb : Notebook)
    (personality : HostPersonality) (newJobId : String) (now : Nat) : PodcastJob :=
  let isResume := isResumeOf snapshot
  { jobId := if isResume then snapshot.bind (fun e => e.jobId) else some newJobId,
    notebookId := some nb.id,
    state := .QUEUED,
    progress := if isResume then (snapshot.map (fun e => e.progress)).getD 0 else 0.05,
    mode := (snapshot.map (fun e => e.mode)).getD .PRIMARY,
    audio := none,
    error := none,
    createdAt := some ((snapshot.bind (fun e => e.createdAt)).getD now),
    personality := some personality,
    completedChunks := (snapshot.map (fun e => e.completedChunks)).getD 0,
    totalChunks := 5,
    partialAudioBuffers := some ((snapshot.bind (fun e => e.partialAudioBuffers)).getD []),
    partialTranscript := some ((snapshot.bind (fun e => e.partialTranscript)).getD []) }

/-- `createPodcastJob` (src/App.tsx lines 76-224) for one notebook.
`snapshot` is the closure-captured `jobs[notebookId]` (the same snapshot
is read for `existingJob` and for the final-job spread); `newJobId`
stands for the fresh `job-${Date.now()}` identifier and `now` for
`Date.now()`.  `fuel` bounds the unbounded segment loop. -/
def createPodcastJob (o : Oracle) (snapshot : Option PodcastJob) (nb : Notebook)
    (personality : HostPersonality) (newJobId : String) (now : Nat) (fuel : Nat) :
    RunResult :=
  let initialJob : PodcastJob := mkInitialJob snapshot nb personality newJobId now
  let st0 : OrchSt :=
    { currentMode := initialJob.mode, jobsEntry := initialJob, trace := [initialJob],
      events := [], audioChunks := [], transcript := [], ttsCalls := 0 }
  let st1 := setJobState st0 .PREFLIGHT 0.1
  let outl : OutlinePhase := outlinePhase o nb initialJob.completedChunks st1
  if outl.usedRemote && o.outlineMalformed then
    let stE := failsafePublish outl.st
    ⟨stE.trace, stE.events, outl.outline, false, true⟩
  else
    let outline := outl.outline
    let N := outline.outline.length
    let chapters : List AudioChapter := outline.outline.mapIdx (fun i op =>
      { id := "ch-" ++ toString i,
        title := match op.topics.head? with
          | some t => if t = "" then "Segment " ++ toString (i + 1) else t
          | none => "Segment " ++ toString (i + 1),
        startMs := i * 180000,
        endMs := (i + 1) * 180000,
        summary := String.intercalate ", " op.topics })
    let stPre : OrchSt :=
      { outl.st with
        audioChunks := (initialJob.partialAudioBuffers).getD []
        transcript := (initialJob.partialTranscript).getD [] }
    let res := segLoop o nb outline fuel initialJob.completedChunks stPre
    if res.2 then
      let stF := setJobState res.1 .FINALIZING 0.95
      match decodeAll stF.audioChunks with
      | none =>
        let stE := failsafePublish stF
        ⟨stE.trace, stE.events, outline, false, true⟩
      | some decoded =>
        let finalJob : PodcastJob :=
          { (snapshot.getD undefinedJob) with
            state := .READY
            progress := 1
            mode := stF.currentMode
            audio := some
              { audio := String.mk (b64Encode decoded.flatten),
                chapters := chapters,
                transcript := stF.transcript,
                artworkUrl := match outl.artwork with
                  | some s => if s = "" then none else some s
                  | none => none },
            completedChunks := N, totalChunks := N }
        let stR : OrchSt := publishJob stF finalJob
        ⟨stR.trace, stR.events, outline, true, false⟩
    else ⟨res.1.trace, res.1.events, outline, false, false⟩

/-! ## UI state mapping (`getGenerationState`,
src/unnamed/part_009 lines 141-152) -/

/-- The AudioStudio `GenerationState` enumeration. -/
inductive GenerationState
  | IDLE | GENERATING | STREAMING | COMPLETE | FAILED_QUOTA | QUOTA_PAUSED
  | QUOTA_BLOCKED | OPTIMIZING
deriving DecidableEq

/-- `getGenerationState` (src/unnamed/part_009 lines 141-152): absent
job maps to IDLE, READY to STREAMING, everything else — including the
internal `FAILED` signal — to GENERATING.  (The source's `case 'IDLE'`
arm matches no value of the published `PodcastJobState` type and is
dead.) -/
def getGenerationState (job : Option PodcastJob) : GenerationState :=
  match job with
  | none => .IDLE
  | some j =>
    match j.state with
    | .QUOTA_PAUSED => .GENERATING
    | .QUOTA_BLOCKED => .GENERATING
    | .OPTIMIZING => .GENERATING
    | .FAILED => .GENERATING
    | .READY => .STREAMING
    | _ => .GENERATING

/-! ## Trace invariants of the orchestrator -/

theorem lastMem {α : Type} {l : List α} {a : α} (h : l.getLast? = some a) : a ∈ l := by
  have := List.mem_getLast?_eq_getLast (l := l) (x := a) (by rw [h]; rfl)
  obtain ⟨hne, rfl⟩ := this
  exact List.getLast_mem hne

@[simp] theorem publishJob_trace (st : OrchSt) (j : PodcastJob) :
    (publishJob st j).trace = st.trace ++ [j] := rfl

@[simp] theorem publishJob_jobsEntry (st : OrchSt) (j : PodcastJob) :
    (publishJob st j).jobsEntry = j := rfl

@[simp] theorem publishJob_currentMode (st : OrchSt) (j : PodcastJob) :
    (publishJob st j).currentMode = st.currentMode := rfl

@[simp] theorem publishJob_events (st : OrchSt) (j : PodcastJob) :
    (publishJob st j).events = st.events := rfl

@[simp] theorem publishJob_audioChunks (st : OrchSt) (j : PodcastJob) :
    (publishJob st j).audioChunks = st.audioChunks := rfl

@[simp] theorem publishJob_ttsCalls (st : OrchSt) (j : PodcastJob) :
    (publishJob st j).ttsCalls = st.ttsCalls := rfl

@[simp] theorem setJobState_trace (st : OrchSt) (s : PodcastJobState) (p : ℚ) :
    (setJobState st s p).trace =
      st.trace ++ [{ st.jobsEntry with
        state := if s = .FAILED then .OPTIMIZING else s
        progress := p
        mode := st.currentMode }] := rfl

@[simp] theorem setJobState_jobsEntry (st : OrchSt) (s : PodcastJobState) (p : ℚ) :
    (setJobState st s p).jobsEntry =
      { st.jobsEntry with
        state := if s = .FAILED then .OPTIMIZING else s
        progress := p
        mode := st.currentMode } := rfl

@[simp] theorem setJobState_currentMode (st : OrchSt) (s : PodcastJobState) (p : ℚ) :
    (setJobState st s p).currentMode = st.currentMode := rfl

@[simp] theorem setJobState_events (st : OrchSt) (s : PodcastJobState) (p : ℚ) :
    (setJobState st s p).events = st.events := rfl

@[simp] theorem setJobState_audioChunks (st : OrchSt) (s : PodcastJobState) (p : ℚ) :
    (setJobState st s p).audioChunks = st.audioChunks := rfl

@[simp] theorem setJobState_ttsCalls (st : OrchSt) (s : PodcastJobState) (p : ℚ) :
    (setJobState st s p).ttsCalls = st.ttsCalls := rfl

theorem scriptStep_fst_trace (o : Oracle) (nb : Notebook) (outline : Outline) (i : Nat)
    (st : OrchSt) : (scriptStep o nb outline i st).1.trace = st.trace := by
  unfold scriptStep
  split <;> (try split) <;> rfl

theorem scriptStep_fst_jobsEntry (o : Oracle) (nb : Notebook) (outline : Outline) (i : Nat)
    (st : OrchSt) : (scriptStep o nb outline i st).1.jobsEntry = st.jobsEntry := by
  unfold scriptStep
  split <;> (try split) <;> rfl

theorem scriptStep_fst_audioChunks (o : Oracle) (nb : Notebook) (outline : Outline) (i : Nat)
    (st : OrchSt) : (scriptStep o nb outline i st).1.audioChunks = st.audioChunks := by
  unfold scriptStep
  split <;> (try split) <;> rfl

theorem scriptStep_fst_ttsCalls (o : Oracle) (nb : Notebook) (outline : Outline) (i : Nat)
    (st : OrchSt) : (scriptStep o nb outline i st).1.ttsCalls = st.ttsCalls := by
  unfold scriptStep
  split <;> (try split) <;> rfl

theorem scriptStep_fst_rank (o : Oracle) (nb : Notebook) (outline : Outline) (i : Nat)
    (st : OrchSt) :
    st.currentMode.rank ≤ (scriptStep o nb outline i st).1.currentMode.rank := by
  unfold scriptStep
  split
  · next hp =>
    split
    · show st.currentMode.rank ≤ GenerationMode.rank .OPTIMIZED
      rw [hp]
      decide
    · exact le_refl _
  · exact le_refl _

theorem scriptStep_fst_events (o : Oracle) (nb : Notebook) (outline : Outline) (i : Nat)
    (st : OrchSt) :
    ∃ A, (scriptStep o nb outline i st).1.events = st.events ++ A ∧
      (∀ ev ∈ A, ev.segIdx? = some i) ∧
      (A.head? = some (.remoteScript i) ∨ A.head? = some (.localScript i)) := by
  unfold scriptStep
  split
  · split
    · exact ⟨[.remoteScript i, .localScript i], rfl, by simp [GenEvent.segIdx?], Or.inl rfl⟩
    · exact ⟨[.remoteScript i], rfl, by simp [GenEvent.segIdx?], Or.inl rfl⟩
  · exact ⟨[.localScript i], rfl, by simp [GenEvent.segIdx?], Or.inr rfl⟩

/-- The published entries never carry state FAILED (and neither does the
live entry). -/
def NoFailedPub (st : OrchSt) : Prop :=
  (∀ j ∈ st.trace, j.state ≠ .FAILED) ∧ st.jobsEntry.state ≠ .FAILED

theorem noFailed_publishJob {st : OrchSt} {j : PodcastJob} (h : NoFailedPub st)
    (hj : j.state ≠ .FAILED) : NoFailedPub (publishJob st j) := by
  refine ⟨?_, hj⟩
  intro x hx
  rw [publishJob_trace, List.mem_append] at hx
  rcases hx with hx | hx
  · exact h.1 x hx
  · rw [List.mem_singleton] at hx
    subst hx
    exact hj

theorem safeState_ne_FAILED (s : PodcastJobState) :
    (if s = .FAILED then PodcastJobState.OPTIMIZING else s) ≠ .FAILED := by
  split
  · decide
  · next h => exact h

theorem noFailed_setJobState {st : OrchSt} (h : NoFailedPub st) (s : PodcastJobState) (p : ℚ) :
    NoFailedPub (setJobState st s p) :=
  noFailed_publishJob h (safeState_ne_FAILED s)

theorem noFailed_scriptStep (o : Oracle) (nb : Notebook) (outline : Outline) (i : Nat)
    {st : OrchSt} (h : NoFailedPub st) : NoFailedPub (scriptStep o nb outline i st).1 := by
  constructor
  · rw [scriptStep_fst_trace]
    exact h.1
  · rw [scriptStep_fst_jobsEntry]
    exact h.2

theorem segLoop_noFailed (o : Oracle) (nb : Notebook) (outline : Outline) :
    ∀ fuel i st, NoFailedPub st → NoFailedPub (segLoop o nb outline fuel i st).1 := by
  intro fuel
  induction fuel with
  | zero =>
    intro i st h
    simp only [segLoop]
    split <;> exact h
  | succ n ih =>
    intro i st h
    simp only [segLoop]
    split
    · have h1 := noFailed_setJobState h .SCRIPTING (0.2 + (i : ℚ) * (0.7 / (outline.outline.length : ℚ)))
      have h2 := noFailed_scriptStep o nb outline i h1
      have h3 := noFailed_setJobState h2 .SYNTHESIZING (0.25 + (i : ℚ) * (0.7 / (outline.outline.length : ℚ)))
      split
      · apply ih
        apply noFailed_publishJob h3
        simp
      · apply ih
        exact noFailed_setJobState h3 .OPTIMIZING _
    · exact h

/-- Pairwise mode comparison along the degradation order. -/
def modeLe (a b : PodcastJob) : Prop := a.mode.rank ≤ b.mode.rank

/-- The published trace is monotone in mode rank; the live entry's mode
never exceeds `currentMode`. -/
def ModeChainOK (st : OrchSt) : Prop :=
  st.trace.getLast? = some st.jobsEntry ∧
  List.Chain' modeLe st.trace ∧
  st.jobsEntry.mode.rank ≤ st.currentMode.rank

theorem modeChain_publishJob {st : OrchSt} {j : PodcastJob} (h : ModeChainOK st)
    (hup : st.jobsEntry.mode.rank ≤ j.mode.rank)
    (hcur : j.mode.rank ≤ st.currentMode.rank) :
    ModeChainOK (publishJob st j) := by
  obtain ⟨hlast, hchain, hrank⟩ := h
  refine ⟨by simp, ?_, by simpa using hcur⟩
  rw [publishJob_trace, List.chain'_append]
  refine ⟨hchain, List.chain'_singleton _, ?_⟩
  intro x hx y hy
  rw [hlast] at hx
  simp only [Option.mem_def, Option.some.injEq] at hx
  simp only [List.head?_cons, Option.mem_def, Option.some.injEq] at hy
  subst hx
  subst hy
  exact hup

theorem modeChain_setJobState {st : OrchSt} (h : ModeChainOK st) (s : PodcastJobState) (p : ℚ) :
    ModeChainOK (setJobState st s p) :=
  modeChain_publishJob h h.2.2 (le_refl _)

theorem modeChain_scriptStep (o : Oracle) (nb : Notebook) (outline : Outline) (i : Nat)
    {st : OrchSt} (h : ModeChainOK st) : ModeChainOK (scriptStep o nb outline i st).1 := by
  obtain ⟨hlast, hchain, hrank⟩ := h
  refine ⟨?_, ?_, ?_⟩
  · rw [scriptStep_fst_trace, scriptStep_fst_jobsEntry]
    exact hlast
  · rw [scriptStep_fst_trace]
    exact hchain
  · rw [scriptStep_fst_jobsEntry]
    exact le_trans hrank (scriptStep_fst_rank o nb outline i st)

theorem modeChain_publish_raw {tr : List PodcastJob} {je : PodcastJob} {m : GenerationMode}
    (j : PodcastJob)
    (hlast : tr.getLast? = some je) (hchain : List.Chain' modeLe tr)
    (hup : je.mode.rank ≤ j.mode.rank) (hcur : j.mode.rank ≤ m.rank) :
    (tr ++ [j]).getLast? = some j ∧ List.Chain' modeLe (tr ++ [j]) ∧ j.mode.rank ≤ m.rank := by
  refine ⟨List.getLast?_concat _, ?_, hcur⟩
  rw [List.chain'_append]
  refine ⟨hchain, List.chain'_singleton _, ?_⟩
  intro x hx y hy
  rw [hlast] at hx
  simp only [Option.mem_def, Option.some.injEq] at hx
  simp only [List.head?_cons, Option.mem_def, Option.some.injEq] at hy
  subst hx
  subst hy
  exact hup

theorem segLoop_modeChain (o : Oracle) (nb : Notebook) (outline : Outline) :
    ∀ fuel i st, ModeChainOK st → ModeChainOK (segLoop o nb outline fuel i st).1 := by
  intro fuel
  induction fuel with
  | zero =>
    intro i st h
    simp only [segLoop]
    split <;> exact h
  | succ n ih =>
    intro i st h
    simp only [segLoop]
    split
    · have h1 := modeChain_setJobState h .SCRIPTING (0.2 + (i : ℚ) * (0.7 / (outline.outline.length : ℚ)))
      have h2 := modeChain_scriptStep o nb outline i h1
      have h3 := modeChain_setJobState h2 .SYNTHESIZING (0.25 + (i : ℚ) * (0.7 / (outline.outline.length : ℚ)))
      split
      · apply ih
        exact modeChain_publish_raw _ h3.1 h3.2.1 (le_refl _) h3.2.2
      · apply ih
        exact modeChain_setJobState h3 .OPTIMIZING _
    · exact h

/-- Every published progress lies in `[0, 1]`. -/
def ProgressOK (st : OrchSt) : Prop :=
  (∀ j ∈ st.trace, 0 ≤ j.progress ∧ j.progress ≤ 1) ∧
  (0 ≤ st.jobsEntry.progress ∧ st.jobsEntry.progress ≤ 1)

theorem progressOK_publishJob {st : OrchSt} {j : PodcastJob} (h : ProgressOK st)
    (hj : 0 ≤ j.progress ∧ j.progress ≤ 1) : ProgressOK (publishJob st j) := by
  refine ⟨?_, hj⟩
  intro x hx
  rw [publishJob_trace, List.mem_append] at hx
  rcases hx with hx | hx
  · exact h.1 x hx
  · rw [List.mem_singleton] at hx
    subst hx
    exact hj

theorem progressOK_setJobState {st : OrchSt} {p : ℚ} (h : ProgressOK st)
    (hp : 0 ≤ p ∧ p ≤ 1) (s : PodcastJobState) : ProgressOK (setJobState st s p) :=
  progressOK_publishJob h hp

theorem progressOK_scriptStep (o : Oracle) (nb : Notebook) (outline : Outline) (i : Nat)
    {st : OrchSt} (h : ProgressOK st) : ProgressOK (scriptStep o nb outline i st).1 := by
  constructor
  · rw [scriptStep_fst_trace]
    exact h.1
  · rw [scriptStep_fst_jobsEntry]
    exact h.2

/-- Bounds for the in-loop progress values `c + i * (0.7 / N)` with
`c ∈ {0.2, 0.25}` and `i < N`. -/
theorem seg_progress_bounds {i N : Nat} (hiN : i < N) {c : ℚ} (hc0 : 0 ≤ c)
    (hc1 : c ≤ 0.3) :
    0 ≤ c + (i : ℚ) * (0.7 / (N : ℚ)) ∧ c + (i : ℚ) * (0.7 / (N : ℚ)) ≤ 1 := by
  have hN0 : (0 : ℚ) < (N : ℚ) := by
    have : 0 < N := by omega
    exact_mod_cast this
  have hdiv : (0 : ℚ) ≤ 0.7 / (N : ℚ) := by positivity
  have hi : (i : ℚ) ≤ (N : ℚ) := by exact_mod_cast Nat.le_of_lt hiN
  have hterm0 : (0 : ℚ) ≤ (i : ℚ) * (0.7 / (N : ℚ)) :=
    mul_nonneg (by positivity) hdiv
  have h1 : (i : ℚ) * (0.7 / (N : ℚ)) ≤ (N : ℚ) * (0.7 / (N : ℚ)) :=
    mul_le_mul_of_nonneg_right hi hdiv
  have h2 : (N : ℚ) * (0.7 / (N : ℚ)) = 0.7 := by
    field_simp
  constructor
  · linarith
  · rw [h2] at h1
    linarith

theorem progress_publish_raw {tr : List PodcastJob} (j : PodcastJob)
    (htr : ∀ x ∈ tr, 0 ≤ x.progress ∧ x.progress ≤ 1)
    (hj : 0 ≤ j.progress ∧ j.progress ≤ 1) :
    (∀ x ∈ tr ++ [j], 0 ≤ x.progress ∧ x.progress ≤ 1) ∧
      (0 ≤ j.progress ∧ j.progress ≤ 1) := by
  refine ⟨?_, hj⟩
  intro x hx
  rw [List.mem_append] at hx
  rcases hx with hx | hx
  · exact htr x hx
  · rw [List.mem_singleton] at hx
    subst hx
    exact hj

theorem segLoop_progress (o : Oracle) (nb : Notebook) (outline : Outline) :
    ∀ fuel i st, ProgressOK st → ProgressOK (segLoop o nb outline fuel i st).1 := by
  intro fuel
  induction fuel with
  | zero =>
    intro i st h
    simp only [segLoop]
    split <;> exact h
  | succ n ih =>
    intro i st h
    simp only [segLoop]
    split
    · next hiN =>
      have hb1 := seg_progress_bounds (N := outline.outline.length) hiN (c := 0.2)
        (by norm_num) (by norm_num)
      have hb2 := seg_progress_bounds (N := outline.outline.length) hiN (c := 0.25)
        (by norm_num) (by norm_num)
      have h1 := progressOK_setJobState h hb1 .SCRIPTING
      have h2 := progressOK_scriptStep o nb outline i h1
      have h3 := progressOK_setJobState h2 hb2 .SYNTHESIZING
      split
      · apply ih
        exact progress_publish_raw _ h3.1 h3.2
      · apply ih
        exact progressOK_setJobState h3 hb2 .OPTIMIZING
    · exact h

theorem segLoop_events_pre (o : Oracle) (nb : Notebook) (outline : Outline) :
    ∀ fuel i st, ∃ rest,
      (segLoop o nb outline fuel i st).1.events = st.events ++ rest ∧
      (∀ ev ∈ rest, ∀ k, ev.segIdx? = some k → i ≤ k) := by
  intro fuel i st
  induction fuel, i, st using segLoop.induct o nb outline with
  | case1 i st hiN =>
    refine ⟨[], ?_, by simp⟩
    simp [segLoop, hiN]
  | case2 i st hiN =>
    refine ⟨[], ?_, by simp⟩
    simp [segLoop, hiN]
  | case3 fuel i st hiN N st1 sc st3 st4 audioBase64 heq chunks tr committed st5 IH =>
    obtain ⟨A, hA, hAidx, _⟩ := scriptStep_fst_events o nb outline i st1
    obtain ⟨rest', h1, h2⟩ := IH
    refine ⟨A ++ [GenEvent.tts i] ++ rest', ?_, ?_⟩
    · unfold st5 committed tr chunks st4 st3 sc st1 N at h1
      unfold st3 sc st1 N at heq
      unfold st1 at hA
      simp only [segLoop]
      rw [if_pos hiN, heq, h1]
      simp [hA]
    · intro ev hev k hk
      simp only [List.mem_append] at hev
      rcases hev with (hev | hev) | hev
      · have hidx := hAidx ev hev
        rw [hidx] at hk
        simp only [Option.some.injEq] at hk
        omega
      · rw [List.mem_singleton] at hev
        subst hev
        simp [GenEvent.segIdx?] at hk
        omega
      · have := h2 ev hev k hk
        omega
  | case4 fuel i st hiN N st1 sc st3 st4 heq st5 IH =>
    obtain ⟨A, hA, hAidx, _⟩ := scriptStep_fst_events o nb outline i st1
    obtain ⟨rest', h1, h2⟩ := IH
    refine ⟨A ++ [GenEvent.tts i] ++ rest', ?_, ?_⟩
    · unfold st5 st4 st3 sc st1 N at h1
      unfold st3 sc st1 N at heq
      unfold st1 at hA
      simp only [segLoop]
      rw [if_pos hiN, heq, h1]
      simp [hA]
    · intro ev hev k hk
      simp only [List.mem_append] at hev
      rcases hev with (hev | hev) | hev
      · have hidx := hAidx ev hev
        rw [hidx] at hk
        simp only [Option.some.injEq] at hk
        omega
      · rw [List.mem_singleton] at hev
        subst hev
        simp [GenEvent.segIdx?] at hk
        omega
      · exact h2 ev hev k hk
  | case5 fuel i st hiN =>
    refine ⟨[], ?_, by simp⟩
    simp [segLoop, hiN]

/-- When the loop actually runs (positive fuel, `i` below the outline
length), the first recorded event is the segment-`i` script request. -/
theorem segLoop_head_event (o : Oracle) (nb : Notebook) (outline : Outline) :
    ∀ fuel i st, 0 < fuel → i < outline.outline.length →
      ∃ rest, (segLoop o nb outline fuel i st).1.events = st.events ++ rest ∧
        (rest.head? = some (.remoteScript i) ∨ rest.head? = some (.localScript i)) := by
  intro fuel i st
  induction fuel, i, st using segLoop.induct o nb outline with
  | case1 i st hiN => intro h _; omega
  | case2 i st hiN => intro h _; omega
  | case3 fuel i st hiN N st1 sc st3 st4 a heq chunks tr committed st5 IH =>
    intro _ _
    obtain ⟨A, hA, _, hAhead⟩ := scriptStep_fst_events o nb outline i st1
    obtain ⟨rest2, h1, _⟩ := segLoop_events_pre o nb outline fuel (i + 1) st5
    refine ⟨A ++ [GenEvent.tts i] ++ rest2, ?_, ?_⟩
    · unfold st5 committed tr chunks st4 st3 sc st1 N at h1
      unfold st3 sc st1 N at heq
      unfold st1 at hA
      simp only [segLoop]
      rw [if_pos hiN, heq, h1]
      simp [hA]
    · rcases A with _ | ⟨e, A2⟩
      · rcases hAhead with h | h <;> simp at h
      · simp only [List.head?_cons, Option.some.injEq] at hAhead
        rcases hAhead with rfl | rfl
        · left
          simp
        · right
          simp
  | case4 fuel i st hiN N st1 sc st3 st4 heq st5 IH =>
    intro _ _
    obtain ⟨A, hA, _, hAhead⟩ := scriptStep_fst_events o nb outline i st1
    obtain ⟨rest2, h1, _⟩ := segLoop_events_pre o nb outline fuel i st5
    refine ⟨A ++ [GenEvent.tts i] ++ rest2, ?_, ?_⟩
    · unfold st5 st4 st3 sc st1 N at h1
      unfold st3 sc st1 N at heq
      unfold st1 at hA
      simp only [segLoop]
      rw [if_pos hiN, heq, h1]
      simp [hA]
    · rcases A with _ | ⟨e, A2⟩
      · rcases hAhead with h | h <;> simp at h
      · simp only [List.head?_cons, Option.some.injEq] at hAhead
        rcases hAhead with rfl | rfl
        · left
          simp
        · right
          simp
  | case5 fuel i st hiN => intro _ h; exact absurd h hiN

/-- Chunk-count consistency of the published entries: counts never
exceed totals, and outside the READY state the count equals the length
of the published buffer list. -/
def CountOK (T : Nat) (st : OrchSt) : Prop :=
  (∀ j ∈ st.trace, j.completedChunks ≤ j.totalChunks) ∧
  (∀ j ∈ st.trace, j.state ≠ .READY → ∀ l, j.partialAudioBuffers = some l →
      j.completedChunks = l.length) ∧
  st.jobsEntry.completedChunks ≤ T ∧
  st.jobsEntry.totalChunks = T ∧
  (∀ l, st.jobsEntry.partialAudioBuffers = some l →
      st.jobsEntry.completedChunks = l.length)

theorem counts_publish_raw {T : Nat} {tr : List PodcastJob} (j : PodcastJob)
    (h1 : ∀ x ∈ tr, x.completedChunks ≤ x.totalChunks)
    (h2 : ∀ x ∈ tr, x.state ≠ .READY → ∀ l, x.partialAudioBuffers = some l →
        x.completedChunks = l.length)
    (hj1 : j.completedChunks ≤ j.totalChunks)
    (hj2 : ∀ l, j.partialAudioBuffers = some l → j.completedChunks = l.length)
    (hc : j.completedChunks ≤ T) (ht : j.totalChunks = T) :
    (∀ x ∈ tr ++ [j], x.completedChunks ≤ x.totalChunks) ∧
    (∀ x ∈ tr ++ [j], x.state ≠ .READY → ∀ l, x.partialAudioBuffers = some l →
        x.completedChunks = l.length) ∧
    j.completedChunks ≤ T ∧ j.totalChunks = T ∧
    (∀ l, j.partialAudioBuffers = some l → j.completedChunks = l.length) := by
  refine ⟨?_, ?_, hc, ht, hj2⟩
  · intro x hx
    rw [List.mem_append] at hx
    rcases hx with hx | hx
    · exact h1 x hx
    · rw [List.mem_singleton] at hx
      subst hx
      exact hj1
  · intro x hx
    rw [List.mem_append] at hx
    rcases hx with hx | hx
    · exact h2 x hx
    · rw [List.mem_singleton] at hx
      subst hx
      intro _
      exact hj2

theorem countOK_setJobState {T : Nat} {st : OrchSt} (h : CountOK T st)
    (s : PodcastJobState) (p : ℚ) : CountOK T (setJobState st s p) :=
  counts_publish_raw _ h.1 h.2.1
    (le_of_le_of_eq h.2.2.1 h.2.2.2.1.symm) h.2.2.2.2 h.2.2.1 h.2.2.2.1

theorem countOK_scriptStep {T : Nat} {o : Oracle} {nb : Notebook} {outline : Outline}
    {i : Nat} {st : OrchSt} (h : CountOK T st) :
    CountOK T (scriptStep o nb outline i st).1 := by
  obtain ⟨a1, a2, a3, a4, a5⟩ := h
  refine ⟨?_, ?_, ?_, ?_, ?_⟩
  · rw [scriptStep_fst_trace]
    exact a1
  · rw [scriptStep_fst_trace]
    exact a2
  · rw [scriptStep_fst_jobsEntry]
    exact a3
  · rw [scriptStep_fst_jobsEntry]
    exact a4
  · rw [scriptStep_fst_jobsEntry]
    exact a5

theorem segLoop_counts (o : Oracle) (nb : Notebook) (outline : Outline) (T : Nat)
    (hNT : outline.outline.length ≤ T) :
    ∀ fuel i st, CountOK T st → st.audioChunks.length = i →
      CountOK T (segLoop o nb outline fuel i st).1 := by
  intro fuel i st
  induction fuel, i, st using segLoop.induct o nb outline with
  | case1 i st hiN =>
    intro h _
    simpa [segLoop, hiN] using h
  | case2 i st hiN =>
    intro h _
    simpa [segLoop, hiN] using h
  | case5 fuel i st hiN =>
    intro h _
    simpa [segLoop, hiN] using h
  | case3 fuel i st hiN N st1 sc st3 st4 a heq chunks tr committed st5 IH =>
    intro h hlen
    have h1 : CountOK T st1 := countOK_setJobState h _ _
    have h2 : CountOK T sc.1 := countOK_scriptStep h1
    have h3 : CountOK T st3 := countOK_setJobState h2 _ _
    have hchl : chunks.length = i + 1 := by
      unfold chunks st4 st3 sc st1
      simp [scriptStep_fst_audioChunks, hlen]
    have hT : committed.totalChunks = T := h3.2.2.2.1
    have hccT : committed.completedChunks ≤ T := by
      show i + 1 ≤ T
      omega
    have hbuf : ∀ l, committed.partialAudioBuffers = some l →
        committed.completedChunks = l.length := by
      intro l hl
      have hcl : some chunks = some l := hl
      rw [Option.some.injEq] at hcl
      show i + 1 = l.length
      rw [← hcl, hchl]
    have hcct : committed.completedChunks ≤ committed.totalChunks := by
      have : committed.totalChunks = T := hT
      omega
    have h5 : CountOK T st5 :=
      counts_publish_raw committed h3.1 h3.2.1 hcct hbuf hccT hT
    have hlen5 : st5.audioChunks.length = i + 1 := hchl
    have goal5 := IH h5 hlen5
    unfold st5 committed tr chunks st4 st3 sc st1 N at goal5
    unfold st3 sc st1 N at heq
    simp only [segLoop]
    rw [if_pos hiN, heq]
    exact goal5
  | case4 fuel i st hiN N st1 sc st3 st4 heq st5 IH =>
    intro h hlen
    have h1 : CountOK T st1 := countOK_setJobState h _ _
    have h2 : CountOK T sc.1 := countOK_scriptStep h1
    have h3 : CountOK T st3 := countOK_setJobState h2 _ _
    have h4 : CountOK T st4 := ⟨h3.1, h3.2.1, h3.2.2.1, h3.2.2.2.1, h3.2.2.2.2⟩
    have h5 : CountOK T st5 := countOK_setJobState h4 _ _
    have hlen5 : st5.audioChunks.length = i := by
      unfold st5 st4 st3 sc st1
      simp [scriptStep_fst_audioChunks, hlen]
    have goal5 := IH h5 hlen5
    unfold st5 st4 st3 sc st1 N at goal5
    unfold st3 sc st1 N at heq
    simp only [segLoop]
    rw [if_pos hiN, heq]
    exact goal5

theorem stuck_publish_raw {c : Nat} {tr : List PodcastJob} (j : PodcastJob)
    (htr : ∀ x ∈ tr, x.state ≠ .READY ∧ x.completedChunks = c)
    (hj : j.state ≠ .READY ∧ j.completedChunks = c) :
    ∀ x ∈ tr ++ [j], x.state ≠ .READY ∧ x.completedChunks = c := by
  intro x hx
  rw [List.mem_append] at hx
  rcases hx with hx | hx
  · exact htr x hx
  · rw [List.mem_singleton] at hx
    subst hx
    exact hj

/-- With a provider whose speech synthesis fails on every attempt, the
segment loop never terminates (for any fuel), never publishes READY, and
never advances `completedChunks`. -/
theorem segLoop_ttsStuck (o : Oracle) (nb : Notebook) (outline : Outline)
    (htts : ∀ n, o.ttsOutcome n = none) (c : Nat) :
    ∀ fuel i st, i < outline.outline.length →
      st.jobsEntry.completedChunks = c →
      (∀ j ∈ st.trace, j.state ≠ .READY ∧ j.completedChunks = c) →
      (segLoop o nb outline fuel i st).2 = false ∧
      (segLoop o nb outline fuel i st).1.jobsEntry.completedChunks = c ∧
      (∀ j ∈ (segLoop o nb outline fuel i st).1.trace,
        j.state ≠ .READY ∧ j.completedChunks = c) := by
  intro fuel i st
  induction fuel, i, st using segLoop.induct o nb outline with
  | case1 i st hiN =>
    intro _ hcc htr
    refine ⟨?_, ?_, ?_⟩
    · simp [segLoop, if_pos hiN]
    · simp only [segLoop, if_pos hiN]
      exact hcc
    · simp only [segLoop, if_pos hiN]
      exact htr
  | case2 i st hiN =>
    intro h _ _
    exact absurd h hiN
  | case5 fuel i st hiN =>
    intro h _ _
    exact absurd h hiN
  | case3 fuel i st hiN N st1 sc st3 st4 a heq chunks tr committed st5 IH =>
    intro _ _ _
    unfold st3 sc st1 N at heq
    rw [htts] at heq
    cases heq
  | case4 fuel i st hiN N st1 sc st3 st4 heq st5 IH =>
    intro _ hcc htr
    have htr1 : ∀ j ∈ st1.trace, j.state ≠ .READY ∧ j.completedChunks = c :=
      stuck_publish_raw _ htr ⟨by simp, hcc⟩
    have htr2 : ∀ j ∈ sc.1.trace, j.state ≠ .READY ∧ j.completedChunks = c := by
      unfold sc
      rw [scriptStep_fst_trace]
      exact htr1
    have hcc2 : sc.1.jobsEntry.completedChunks = c := by
      unfold sc
      rw [scriptStep_fst_jobsEntry]
      exact hcc
    have htr3 : ∀ j ∈ st3.trace, j.state ≠ .READY ∧ j.completedChunks = c :=
      stuck_publish_raw _ htr2 ⟨by simp, hcc2⟩
    have htr5 : ∀ j ∈ st5.trace, j.state ≠ .READY ∧ j.completedChunks = c :=
      stuck_publish_raw _ htr3 ⟨by simp, hcc2⟩
    have hcc5 : st5.jobsEntry.completedChunks = c := hcc2
    obtain ⟨g1, g2, g3⟩ := IH hiN hcc5 htr5
    unfold st5 st4 st3 sc st1 N at g1 g2 g3
    unfold st3 sc st1 N at heq
    refine ⟨?_, ?_, ?_⟩ <;> simp only [segLoop] <;> rw [if_pos hiN, heq]
    · exact g1
    · exact g2
    · exact g3

/-- Trace chaining for published progress values. -/
def ProgressChain (st : OrchSt) : Prop :=
  st.trace.getLast? = some st.jobsEntry ∧
  List.Chain' (fun a b => a.progress ≤ b.progress) st.trace

theorem chainP_publish_raw {tr : List PodcastJob} {je : PodcastJob} (j : PodcastJob)
    (hlast : tr.getLast? = some je)
    (hchain : List.Chain' (fun a b => a.progress ≤ b.progress) tr)
    (hle : je.progress ≤ j.progress) :
    (tr ++ [j]).getLast? = some j ∧
    List.Chain' (fun a b => a.progress ≤ b.progress) (tr ++ [j]) := by
  refine ⟨List.getLast?_concat _, ?_⟩
  rw [List.chain'_append]
  refine ⟨hchain, List.chain'_singleton _, ?_⟩
  intro x hx y hy
  rw [hlast] at hx
  simp only [Option.mem_def, Option.some.injEq] at hx
  simp only [List.head?_cons, Option.mem_def, Option.some.injEq] at hy
  subst hx
  subst hy
  exact hle

theorem iDelta_le {i N : Nat} (hiN : i < N) :
    (i : ℚ) * (0.7 / (N : ℚ)) ≤ 0.7 := by
  have hN0 : (0 : ℚ) < (N : ℚ) := by
    have : 0 < N := by omega
    exact_mod_cast this
  have hdiv : (0 : ℚ) ≤ 0.7 / (N : ℚ) := by positivity
  have hi : (i : ℚ) ≤ (N : ℚ) := by exact_mod_cast Nat.le_of_lt hiN
  have h1 : (i : ℚ) * (0.7 / (N : ℚ)) ≤ (N : ℚ) * (0.7 / (N : ℚ)) :=
    mul_le_mul_of_nonneg_right hi hdiv
  have h2 : (N : ℚ) * (0.7 / (N : ℚ)) = 0.7 := by
    field_simp
  rw [h2] at h1
  exact h1

theorem delta_ge {N : Nat} (hN : 0 < N) (h14 : N ≤ 14) :
    (0.05 : ℚ) ≤ 0.7 / (N : ℚ) := by
  have hN0 : (0 : ℚ) < (N : ℚ) := by exact_mod_cast hN
  have h14q : (N : ℚ) ≤ 14 := by exact_mod_cast h14
  have h1 : (0.7 : ℚ) / 14 ≤ 0.7 / (N : ℚ) :=
    div_le_div_of_nonneg_left (by norm_num) hN0 h14q
  have h2 : (0.7 : ℚ) / 14 = 0.05 := by norm_num
  rw [h2] at h1
  exact h1

/-- If every synthesis attempt succeeds and the outline has at most 14
segments, the published progress is non-decreasing along the segment
loop and ends at most at `0.95`. -/
theorem segLoop_progressChain (o : Oracle) (nb : Notebook) (outline : Outline)
    (htts : ∀ n, ∃ b, o.ttsOutcome n = some b)
    (hN14 : outline.outline.length ≤ 14) :
    ∀ fuel i st, ProgressChain st →
      st.jobsEntry.progress ≤ 0.95 →
      (i < outline.outline.length →
        st.jobsEntry.progress ≤ 0.2 + (i : ℚ) * (0.7 / (outline.outline.length : ℚ))) →
      ProgressChain (segLoop o nb outline fuel i st).1 ∧
      (segLoop o nb outline fuel i st).1.jobsEntry.progress ≤ 0.95 := by
  intro fuel i st
  induction fuel, i, st using segLoop.induct o nb outline with
  | case1 i st hiN =>
    intro hch h95 _
    refine ⟨?_, ?_⟩ <;> simp only [segLoop, if_pos hiN]
    · exact hch
    · exact h95
  | case2 i st hiN =>
    intro hch h95 _
    refine ⟨?_, ?_⟩ <;> simp only [segLoop, if_neg hiN]
    · exact hch
    · exact h95
  | case5 fuel i st hiN =>
    intro hch h95 _
    refine ⟨?_, ?_⟩ <;> simp only [segLoop, if_neg hiN]
    · exact hch
    · exact h95
  | case4 fuel i st hiN N st1 sc st3 st4 heq st5 IH =>
    intro _ _ _
    obtain ⟨b, hb⟩ := htts st3.ttsCalls
    rw [hb] at heq
    cases heq
  | case3 fuel i st hiN N st1 sc st3 st4 a heq chunks tr committed st5 IH =>
    intro hch h95 hbound
    have hN0 : 0 < outline.outline.length := by omega
    have hiD := iDelta_le (N := outline.outline.length) hiN
    have hD := delta_ge (N := outline.outline.length) hN0 hN14
    have hch1 : ProgressChain st1 :=
      chainP_publish_raw _ hch.1 hch.2 (hbound hiN)
    have hch2 : ProgressChain sc.1 := by
      unfold sc
      constructor
      · rw [scriptStep_fst_trace, scriptStep_fst_jobsEntry]
        exact hch1.1
      · rw [scriptStep_fst_trace]
        exact hch1.2
    have hp1 : sc.1.jobsEntry.progress =
        0.2 + (i : ℚ) * (0.7 / (outline.outline.length : ℚ)) := by
      unfold sc
      rw [scriptStep_fst_jobsEntry]
      rfl
    have hch3 : ProgressChain st3 := by
      refine chainP_publish_raw _ hch2.1 hch2.2 ?_
      rw [hp1]
      show (0.2 : ℚ) + _ ≤ 0.25 + _
      linarith
    have hch5 : ProgressChain st5 :=
      chainP_publish_raw _ hch3.1 hch3.2 (le_refl _)
    have hp5 : st5.jobsEntry.progress =
        0.25 + (i : ℚ) * (0.7 / (outline.outline.length : ℚ)) := rfl
    have h95n : st5.jobsEntry.progress ≤ 0.95 := by
      rw [hp5]
      linarith
    have hbn : (i + 1) < outline.outline.length →
        st5.jobsEntry.progress ≤
          0.2 + ((i + 1 : Nat) : ℚ) * (0.7 / (outline.outline.length : ℚ)) := by
      intro _
      rw [hp5]
      push_cast
      have := hD
      nlinarith [hD]
    obtain ⟨g1, g2⟩ := IH hch5 h95n hbn
    unfold st5 committed tr chunks st4 st3 sc st1 N at g1 g2
    unfold st3 sc st1 N at heq
    refine ⟨?_, ?_⟩ <;> simp only [segLoop] <;> rw [if_pos hiN, heq]
    · exact g1
    · exact g2

theorem noFailed_failsafe {st : OrchSt} (h : NoFailedPub st) :
    NoFailedPub (failsafePublish st) := noFailed_publishJob h (by simp)

theorem modeChain_failsafe {st : OrchSt} (h : ModeChainOK st) :
    ModeChainOK (failsafePublish st) :=
  modeChain_publish_raw _ h.1 h.2.1 h.2.2 (le_refl _)

theorem progress_failsafe {st : OrchSt} (h : ProgressOK st) :
    ProgressOK (failsafePublish st) :=
  progress_publish_raw _ h.1 (by constructor <;> norm_num)

theorem counts_failsafe {T : Nat} {st : OrchSt} (h : CountOK T st) :
    CountOK T (failsafePublish st) :=
  counts_publish_raw _ h.1 h.2.1
    (le_of_le_of_eq h.2.2.1 h.2.2.2.1.symm) h.2.2.2.2 h.2.2.1 h.2.2.2.1

theorem outlinePhase_noFailed {o : Oracle} {nb : Notebook} {cc : Nat} {st1 : OrchSt}
    (h : NoFailedPub st1) : NoFailedPub (outlinePhase o nb cc st1).st := by
  have hA := noFailed_setJobState h .OUTLINING 0.15
  simp only [outlinePhase]
  split
  · split <;> (try split) <;> first
      | exact hA
      | exact ⟨hA.1, hA.2⟩
  · exact h

theorem outlinePhase_modeChain {o : Oracle} {nb : Notebook} {cc : Nat} {st1 : OrchSt}
    (h : ModeChainOK st1) : ModeChainOK (outlinePhase o nb cc st1).st := by
  have hA := modeChain_setJobState h .OUTLINING 0.15
  simp only [outlinePhase]
  split
  · split <;> (try split) <;> first
      | exact hA
      | (rename_i h1 h2
         refine ⟨hA.1, hA.2.1, ?_⟩
         show st1.currentMode.rank ≤ GenerationMode.rank .OPTIMIZED
         have hp2 : st1.currentMode = .PRIMARY := by
           first
             | exact h1
             | exact h2
         rw [hp2]
         decide)
  · exact h

theorem outlinePhase_progress {o : Oracle} {nb : Notebook} {cc : Nat} {st1 : OrchSt}
    (h : ProgressOK st1) : ProgressOK (outlinePhase o nb cc st1).st := by
  have hA := progressOK_setJobState h (p := 0.15) (by constructor <;> norm_num) .OUTLINING
  simp only [outlinePhase]
  split
  · split <;> (try split) <;> first
      | exact hA
      | exact ⟨hA.1, hA.2⟩
  · exact h

theorem outlinePhase_counts {T : Nat} {o : Oracle} {nb : Notebook} {cc : Nat} {st1 : OrchSt}
    (h : CountOK T st1) : CountOK T (outlinePhase o nb cc st1).st := by
  have hA := countOK_setJobState h .OUTLINING 0.15
  simp only [outlinePhase]
  split
  · split <;> (try split) <;> first
      | exact hA
      | exact ⟨hA.1, hA.2.1, hA.2.2.1, hA.2.2.2.1, hA.2.2.2.2⟩
  · exact h

theorem outlinePhase_st_audioChunks (o : Oracle) (nb : Notebook) (cc : Nat) (st1 : OrchSt) :
    (outlinePhase o nb cc st1).st.audioChunks = st1.audioChunks := by
  simp only [outlinePhase]
  split
  · split <;> (try split) <;> rfl
  · rfl

theorem outlinePhase_cc_ne {o : Oracle} {nb : Notebook} {cc : Nat} {st1 : OrchSt}
    (h : cc ≠ 0) :
    outlinePhase o nb cc st1 = ⟨st1, generateLocalOutline nb, none, false⟩ := by
  unfold outlinePhase
  rw [if_neg h]

@[simp] theorem mkInitialJob_state (snapshot : Option PodcastJob) (nb : Notebook)
    (pers : HostPersonality) (nid : String) (now : Nat) :
    (mkInitialJob snapshot nb pers nid now).state = .QUEUED := rfl

@[simp] theorem mkInitialJob_totalChunks (snapshot : Option PodcastJob) (nb : Notebook)
    (pers : HostPersonality) (nid : String) (now : Nat) :
    (mkInitialJob snapshot nb pers nid now).totalChunks = 5 := rfl

@[simp] theorem mkInitialJob_completedChunks (snapshot : Option PodcastJob) (nb : Notebook)
    (pers : HostPersonality) (nid : String) (now : Nat) :
    (mkInitialJob snapshot nb pers nid now).completedChunks =
      (snapshot.map (fun e => e.completedChunks)).getD 0 := rfl

@[simp] theorem mkInitialJob_mode (snapshot : Option PodcastJob) (nb : Notebook)
    (pers : HostPersonality) (nid : String) (now : Nat) :
    (mkInitialJob snapshot nb pers nid now).mode =
      (snapshot.map (fun e => e.mode)).getD .PRIMARY := rfl

@[simp] theorem mkInitialJob_partialAudioBuffers (snapshot : Option PodcastJob)
    (nb : Notebook) (pers : HostPersonality) (nid : String) (now : Nat) :
    (mkInitialJob snapshot nb pers nid now).partialAudioBuffers =
      some ((snapshot.bind (fun e => e.partialAudioBuffers)).getD []) := rfl

@[simp] theorem mkInitialJob_partialTranscript (snapshot : Option PodcastJob)
    (nb : Notebook) (pers : HostPersonality) (nid : String) (now : Nat) :
    (mkInitialJob snapshot nb pers nid now).partialTranscript =
      some ((snapshot.bind (fun e => e.partialTranscript)).getD []) := rfl

theorem mkInitialJob_progress_bounds {snapshot : Option PodcastJob} (nb : Notebook)
    (pers : HostPersonality) (nid : String) (now : Nat)
    (h : ∀ e, snapshot = some e → 0 ≤ e.progress ∧ e.progress ≤ 1) :
    0 ≤ (mkInitialJob snapshot nb pers nid now).progress ∧
      (mkInitialJob snapshot nb pers nid now).progress ≤ 1 := by
  show 0 ≤ (if isResumeOf snapshot then (snapshot.map (fun e => e.progress)).getD 0
      else (0.05 : ℚ)) ∧
    (if isResumeOf snapshot then (snapshot.map (fun e => e.progress)).getD 0
      else (0.05 : ℚ)) ≤ 1
  cases hR : isResumeOf snapshot
  · simp only [hR, Bool.false_eq_true, if_false]
    constructor <;> norm_num
  · simp only [hR, if_true]
    cases snapshot with
    | none => constructor <;> norm_num
    | some e => simpa using h e rfl

theorem head?_append_left {α : Type} {l₁ l₂ : List α} (h : l₁ ≠ []) :
    (l₁ ++ l₂).head? = l₁.head? := by
  rcases l₁ with _ | ⟨a, l⟩
  · exact absurd rfl h
  · rfl

theorem publishJob_headState {st : OrchSt} {j : PodcastJob} (h : st.trace ≠ []) :
    (publishJob st j).trace.head? = st.trace.head? ∧ (publishJob st j).trace ≠ [] := by
  refine ⟨head?_append_left h, ?_⟩
  simp [publishJob]

theorem setJobState_headState (st : OrchSt) (s : PodcastJobState) (p : ℚ)
    (h : st.trace ≠ []) :
    (setJobState st s p).trace.head? = st.trace.head? ∧ (setJobState st s p).trace ≠ [] :=
  publishJob_headState h

theorem failsafePublish_headState {st : OrchSt} (h : st.trace ≠ []) :
    (failsafePublish st).trace.head? = st.trace.head? ∧ (failsafePublish st).trace ≠ [] :=
  publishJob_headState h

theorem scriptStep_headState (o : Oracle) (nb : Notebook) (outline : Outline) (i : Nat)
    {st : OrchSt} (h : st.trace ≠ []) :
    (scriptStep o nb outline i st).1.trace.head? = st.trace.head? ∧
      (scriptStep o nb outline i st).1.trace ≠ [] := by
  rw [scriptStep_fst_trace]
  exact ⟨rfl, h⟩

theorem outlinePhase_headState (o : Oracle) (nb : Notebook) (cc : Nat) {st1 : OrchSt}
    (h : st1.trace ≠ []) :
    (outlinePhase o nb cc st1).st.trace.head? = st1.trace.head? ∧
      (outlinePhase o nb cc st1).st.trace ≠ [] := by
  have hA := setJobState_headState st1 .OUTLINING 0.15 h
  simp only [outlinePhase]
  split
  · split <;> (try split) <;> exact hA
  · exact ⟨rfl, h⟩

theorem segLoop_headState (o : Oracle) (nb : Notebook) (outline : Outline) :
    ∀ fuel i st, st.trace ≠ [] →
      (segLoop o nb outline fuel i st).1.trace.head? = st.trace.head? ∧
        (segLoop o nb outline fuel i st).1.trace ≠ [] := by
  intro fuel i st
  induction fuel, i, st using segLoop.induct o nb outline with
  | case1 i st hiN =>
    intro h
    constructor
    · simp [segLoop, hiN]
    · simp only [segLoop, if_pos hiN]
      exact h
  | case2 i st hiN =>
    intro h
    constructor
    · simp [segLoop, hiN]
    · simp only [segLoop, if_neg hiN]
      exact h
  | case5 fuel i st hiN =>
    intro h
    constructor
    · simp [segLoop, hiN]
    · simp only [segLoop, if_neg hiN]
      exact h
  | case3 fuel i st hiN N st1 sc st3 st4 a heq chunks tr committed st5 IH =>
    intro h
    have h1 := setJobState_headState st .SCRIPTING
      (0.2 + (i : ℚ) * (0.7 / (outline.outline.length : ℚ))) h
    have h2 := scriptStep_headState o nb outline i h1.2
    have h3 := setJobState_headState sc.1 .SYNTHESIZING
      (0.25 + (i : ℚ) * (0.7 / (outline.outline.length : ℚ))) h2.2
    have h5 : st5.trace.head? = st3.trace.head? ∧ st5.trace ≠ [] :=
      publishJob_headState h3.2
    obtain ⟨g1, g2⟩ := IH h5.2
    unfold st5 committed tr chunks st4 st3 sc st1 N at g1 g2
    unfold st3 sc st1 N at heq
    unfold st5 committed tr chunks st4 st3 sc st1 N at h5
    unfold sc st1 N at h3
    refine ⟨?_, ?_⟩ <;> simp only [segLoop] <;> rw [if_pos hiN, heq]
    · rw [g1, h5.1, h3.1, h2.1, h1.1]
    · exact g2
  | case4 fuel i st hiN N st1 sc st3 st4 heq st5 IH =>
    intro h
    have h1 := setJobState_headState st .SCRIPTING
      (0.2 + (i : ℚ) * (0.7 / (outline.outline.length : ℚ))) h
    have h2 := scriptStep_headState o nb outline i h1.2
    have h3 := setJobState_headState sc.1 .SYNTHESIZING
      (0.25 + (i : ℚ) * (0.7 / (outline.outline.length : ℚ))) h2.2
    have h5 : st5.trace.head? = st3.trace.head? ∧ st5.trace ≠ [] :=
      setJobState_headState _ _ _ h3.2
    obtain ⟨g1, g2⟩ := IH h5.2
    unfold st5 st4 st3 sc st1 N at g1 g2
    unfold st3 sc st1 N at heq
    unfold st5 st4 st3 sc st1 N at h5
    unfold sc st1 N at h3
    refine ⟨?_, ?_⟩ <;> simp only [segLoop] <;> rw [if_pos hiN, heq]
    · rw [g1, h5.1, h3.1, h2.1, h1.1]
    · exact g2

theorem noFailed_start (m : GenerationMode) (J : PodcastJob) (hJ : J.state ≠ .FAILED) :
    NoFailedPub ⟨m, J, [J], [], [], [], 0⟩ := by
  refine ⟨?_, hJ⟩
  intro x hx
  rw [List.mem_singleton] at hx
  subst hx
  exact hJ

theorem modeChain_start (J : PodcastJob) :
    ModeChainOK ⟨J.mode, J, [J], [], [], [], 0⟩ :=
  ⟨rfl, List.chain'_singleton _, le_refl _⟩

theorem progress_start (m : GenerationMode) (J : PodcastJob)
    (hJ : 0 ≤ J.progress ∧ J.progress ≤ 1) :
    ProgressOK ⟨m, J, [J], [], [], [], 0⟩ := by
  refine ⟨?_, hJ⟩
  intro x hx
  rw [List.mem_singleton] at hx
  subst hx
  exact hJ

theorem counts_start {T : Nat} (m : GenerationMode) (J : PodcastJob)
    (h1 : J.completedChunks ≤ J.totalChunks)
    (h2 : ∀ l, J.partialAudioBuffers = some l → J.completedChunks = l.length)
    (h3 : J.completedChunks ≤ T) (h4 : J.totalChunks = T) :
    CountOK T ⟨m, J, [J], [], [], [], 0⟩ := by
  refine ⟨?_, ?_, h3, h4, h2⟩
  · intro x hx
    rw [List.mem_singleton] at hx
    subst hx
    exact h1
  · intro x hx
    rw [List.mem_singleton] at hx
    subst hx
    intro _
    exact h2

theorem noFailed_stPre (ac : List String) (tsc : List TranscriptSegment) {st : OrchSt}
    (h : NoFailedPub st) :
    NoFailedPub { st with audioChunks := ac, transcript := tsc } := ⟨h.1, h.2⟩

theorem modeChain_stPre (ac : List String) (tsc : List TranscriptSegment) {st : OrchSt}
    (h : ModeChainOK st) :
    ModeChainOK { st with audioChunks := ac, transcript := tsc } := ⟨h.1, h.2.1, h.2.2⟩

theorem progress_stPre (ac : List String) (tsc : List TranscriptSegment) {st : OrchSt}
    (h : ProgressOK st) :
    ProgressOK { st with audioChunks := ac, transcript := tsc } := ⟨h.1, h.2⟩

theorem counts_stPre {T : Nat} (ac : List String) (tsc : List TranscriptSegment)
    {st : OrchSt} (h : CountOK T st) :
    CountOK T { st with audioChunks := ac, transcript := tsc } :=
  ⟨h.1, h.2.1, h.2.2.1, h.2.2.2.1, h.2.2.2.2⟩

theorem head_stPre (ac : List String) (tsc : List TranscriptSegment) {st : OrchSt}
    (h : st.trace ≠ []) :
    ({ st with audioChunks := ac, transcript := tsc } : OrchSt).trace.head? =
        st.trace.head? ∧
      ({ st with audioChunks := ac, transcript := tsc } : OrchSt).trace ≠ [] := ⟨rfl, h⟩

/-- Every run's first published entry is its `initialJob`. -/
theorem createPodcastJob_head (o : Oracle) (snapshot : Option PodcastJob) (nb : Notebook)
    (pers : HostPersonality) (nid : String) (now fuel : Nat) :
    (createPodcastJob o snapshot nb pers nid now fuel).trace.head? =
      some (mkInitialJob snapshot nb pers nid now) := by
  simp only [createPodcastJob]
  split
  · rw [(failsafePublish_headState ?_).1, (outlinePhase_headState o nb _ ?_).1,
      (setJobState_headState _ .PREFLIGHT 0.1 ?_).1]
    · rfl
    · simp
    · exact (setJobState_headState _ .PREFLIGHT 0.1 (by simp)).2
    · exact (outlinePhase_headState o nb _
        (setJobState_headState _ .PREFLIGHT 0.1 (by simp)).2).2
  · split
    · split
      · rw [(failsafePublish_headState ?_).1, (setJobState_headState _ .FINALIZING 0.95 ?_).1,
          (segLoop_headState o nb _ fuel _ _ ?_).1, (head_stPre _ _ ?_).1,
          (outlinePhase_headState o nb _ ?_).1, (setJobState_headState _ .PREFLIGHT 0.1 ?_).1]
        · rfl
        · simp
        · exact (setJobState_headState _ .PREFLIGHT 0.1 (by simp)).2
        · exact (outlinePhase_headState o nb _
            (setJobState_headState _ .PREFLIGHT 0.1 (by simp)).2).2
        · exact (head_stPre _ _ (outlinePhase_headState o nb _
            (setJobState_headState _ .PREFLIGHT 0.1 (by simp)).2).2).2
        · exact (segLoop_headState o nb _ fuel _ _ (head_stPre _ _
            (outlinePhase_headState o nb _
              (setJobState_headState _ .PREFLIGHT 0.1 (by simp)).2).2).2).2
        · exact (setJobState_headState _ .FINALIZING 0.95
            (segLoop_headState o nb _ fuel _ _ (head_stPre _ _
              (outlinePhase_headState o nb _
                (setJobState_headState _ .PREFLIGHT 0.1 (by simp)).2).2).2).2).2
      · rw [(publishJob_headState ?_).1, (setJobState_headState _ .FINALIZING 0.95 ?_).1,
          (segLoop_headState o nb _ fuel _ _ ?_).1, (head_stPre _ _ ?_).1,
          (outlinePhase_headState o nb _ ?_).1, (setJobState_headState _ .PREFLIGHT 0.1 ?_).1]
        · rfl
        · simp
        · exact (setJobState_headState _ .PREFLIGHT 0.1 (by simp)).2
        · exact (outlinePhase_headState o nb _
            (setJobState_headState _ .PREFLIGHT 0.1 (by simp)).2).2
        · exact (head_stPre _ _ (outlinePhase_headState o nb _
            (setJobState_headState _ .PREFLIGHT 0.1 (by simp)).2).2).2
        · exact (segLoop_headState o nb _ fuel _ _ (head_stPre _ _
            (outlinePhase_headState o nb _
              (setJobState_headState _ .PREFLIGHT 0.1 (by simp)).2).2).2).2
        · exact (setJobState_headState _ .FINALIZING 0.95
            (segLoop_headState o nb _ fuel _ _ (head_stPre _ _
              (outlinePhase_headState o nb _
                (setJobState_headState _ .PREFLIGHT 0.1 (by simp)).2).2).2).2).2
    · rw [(segLoop_headState o nb _ fuel _ _ ?_).1, (head_stPre _ _ ?_).1,
        (outlinePhase_headState o nb _ ?_).1, (setJobState_headState _ .PREFLIGHT 0.1 ?_).1]
      · rfl
      · simp
      · exact (setJobState_headState _ .PREFLIGHT 0.1 (by simp)).2
      · exact (outlinePhase_headState o nb _
          (setJobState_headState _ .PREFLIGHT 0.1 (by simp)).2).2
      · exact (head_stPre _ _ (outlinePhase_headState o nb _
          (setJobState_headState _ .PREFLIGHT 0.1 (by simp)).2).2).2

/-! ## Claim C2: FAILED is never published -/

/-- C2: the externally visible state of a job never equals FAILED —
every entry a `createPodcastJob` run publishes to the jobs map has a
non-FAILED state; `setJobState` remaps a FAILED argument to OPTIMIZING
before publishing; and the AudioStudio mapping renders an internal
FAILED as GENERATING. -/
theorem c2_never_publishes_failed :
    (∀ (o : Oracle) (snapshot : Option PodcastJob) (nb : Notebook)
        (pers : HostPersonality) (nid : String) (now fuel : Nat),
      ∀ j ∈ (createPodcastJob o snapshot nb pers nid now fuel).trace,
        j.state ≠ .FAILED) ∧
    (∀ (st : OrchSt) (p : ℚ),
      (setJobState st .FAILED p).jobsEntry.state = .OPTIMIZING) ∧
    (∀ j : PodcastJob, j.state = .FAILED →
      getGenerationState (some j) = .GENERATING) := by
  refine ⟨?_, ?_, ?_⟩
  · intro o snapshot nb pers nid now fuel
    simp only [createPodcastJob]
    split
    · refine (noFailed_failsafe ?_).1
      refine outlinePhase_noFailed ?_
      refine noFailed_setJobState ?_ .PREFLIGHT 0.1
      exact noFailed_start _ _ (by simp)
    · split
      · split
        · refine (noFailed_failsafe ?_).1
          refine noFailed_setJobState ?_ .FINALIZING 0.95
          refine segLoop_noFailed o nb _ fuel _ _ ?_
          refine noFailed_stPre _ _ ?_
          refine outlinePhase_noFailed ?_
          refine noFailed_setJobState ?_ .PREFLIGHT 0.1
          exact noFailed_start _ _ (by simp)
        · refine (noFailed_publishJob ?_ ?_).1
          · refine noFailed_setJobState ?_ .FINALIZING 0.95
            refine segLoop_noFailed o nb _ fuel _ _ ?_
            refine noFailed_stPre _ _ ?_
            refine outlinePhase_noFailed ?_
            refine noFailed_setJobState ?_ .PREFLIGHT 0.1
            exact noFailed_start _ _ (by simp)
          · simp
      · refine (segLoop_noFailed o nb _ fuel _ _ ?_).1
        refine noFailed_stPre _ _ ?_
        refine outlinePhase_noFailed ?_
        refine noFailed_setJobState ?_ .PREFLIGHT 0.1
        exact noFailed_start _ _ (by simp)
  · intro st p
    rfl
  · intro j hj
    simp only [getGenerationState, hj]

/-! ## Claim C3: mode degrades monotonically -/

/-- C3: within a single job the mode only moves in the direction
PRIMARY → OPTIMIZED → FAILSAFE — along every pair of successive
published states of a run the mode rank never decreases, for every
sequence of simulated provider outcomes — and a resumed run starts from
the snapshot's mode, so the chain extends across resumption. -/
theorem c3_mode_monotone :
    (∀ (o : Oracle) (snapshot : Option PodcastJob) (nb : Notebook)
        (pers : HostPersonality) (nid : String) (now fuel : Nat),
      List.Chain' modeLe (createPodcastJob o snapshot nb pers nid now fuel).trace) ∧
    (∀ (o : Oracle) (e : PodcastJob) (nb : Notebook) (pers : HostPersonality)
        (nid : String) (now fuel : Nat),
      ((createPodcastJob o (some e) nb pers nid now fuel).trace.head?.map
        (fun j => j.mode)) = some e.mode) := by
  constructor
  · intro o snapshot nb pers nid now fuel
    simp only [createPodcastJob]
    split
    · refine (modeChain_failsafe ?_).2.1
      refine outlinePhase_modeChain ?_
      refine modeChain_setJobState ?_ .PREFLIGHT 0.1
      exact modeChain_start _
    · split
      · split
        · refine (modeChain_failsafe ?_).2.1
          refine modeChain_setJobState ?_ .FINALIZING 0.95
          refine segLoop_modeChain o nb _ fuel _ _ ?_
          refine modeChain_stPre _ _ ?_
          refine outlinePhase_modeChain ?_
          refine modeChain_setJobState ?_ .PREFLIGHT 0.1
          exact modeChain_start _
        · refine (modeChain_publish_raw _
            (modeChain_setJobState (segLoop_modeChain o nb _ fuel _ _
              (modeChain_stPre _ _ (outlinePhase_modeChain (modeChain_setJobState
                (modeChain_start _) .PREFLIGHT 0.1)))) .FINALIZING 0.95).1
            (modeChain_setJobState (segLoop_modeChain o nb _ fuel _ _
              (modeChain_stPre _ _ (outlinePhase_modeChain (modeChain_setJobState
                (modeChain_start _) .PREFLIGHT 0.1)))) .FINALIZING 0.95).2.1
            (modeChain_setJobState (segLoop_modeChain o nb _ fuel _ _
              (modeChain_stPre _ _ (outlinePhase_modeChain (modeChain_setJobState
                (modeChain_start _) .PREFLIGHT 0.1)))) .FINALIZING 0.95).2.2
            (le_refl _)).2.1
      · refine (segLoop_modeChain o nb _ fuel _ _ ?_).2.1
        refine modeChain_stPre _ _ ?_
        refine outlinePhase_modeChain ?_
        refine modeChain_setJobState ?_ .PREFLIGHT 0.1
        exact modeChain_start _
  · intro o e nb pers nid now fuel
    rw [createPodcastJob_head]
    rfl

/-- A provider behaviour whose outline call throws (forcing the local
5-segment outline) and whose speech-synthesis call fails on every
attempt (`generateTTSChunk` throws "TTS failed." each time). -/
def c1Oracle : Oracle :=
  { outlineFails := true, outlineMalformed := false, outlineValue := ⟨[]⟩,
    artworkValue := none, scriptFails := fun _ => false,
    scriptValue := fun _ => ⟨"", []⟩, ttsOutcome := fun _ => none }

/-- C1: REFUTED — the per-segment synthesis retry is NOT bounded. Against a
provider whose speech-synthesis call fails on every attempt, a fresh job never
reaches READY: for every amount of fuel given to the `i--` retry loop the run
does not complete, no published state is READY, and completedChunks stays 0
(the loop re-runs segment 0 forever with a 5s backoff, never committing a
silent chunk). The claim requires the job to eventually reach READY. -/
theorem c1_tts_retry_unbounded (nb : Notebook) (pers : HostPersonality)
    (nid : String) (now : Nat) :
    ∀ fuel : Nat,
      (createPodcastJob c1Oracle none nb pers nid now fuel).completed = false ∧
      ∀ j ∈ (createPodcastJob c1Oracle none nb pers nid now fuel).trace,
        j.state ≠ .READY ∧ j.completedChunks = 0 := by
  intro fuel
  have htts : ∀ n, c1Oracle.ttsOutcome n = none := fun _ => rfl
  have hpre : ∀ j ∈ [mkInitialJob none nb pers nid now,
      { mkInitialJob none nb pers nid now with
        state := .PREFLIGHT, progress := 0.1, mode := (mkInitialJob none nb pers nid now).mode },
      { { mkInitialJob none nb pers nid now with
        state := .PREFLIGHT, progress := 0.1, mode := (mkInitialJob none nb pers nid now).mode } with
        state := .OUTLINING, progress := 0.15, mode := (mkInitialJob none nb pers nid now).mode }],
      j.state ≠ PodcastJobState.READY ∧ j.completedChunks = 0 := by
    intro j hj
    simp only [List.mem_cons, List.not_mem_nil, or_false] at hj
    rcases hj with rfl | rfl | rfl
    · exact ⟨by simp, rfl⟩
    · exact ⟨by simp, rfl⟩
    · exact ⟨by simp, rfl⟩
  have hstuck := segLoop_ttsStuck c1Oracle nb (generateLocalOutline nb) htts 0 fuel 0
    { currentMode := GenerationMode.OPTIMIZED,
      jobsEntry := { { mkInitialJob none nb pers nid now with
        state := .PREFLIGHT, progress := 0.1, mode := (mkInitialJob none nb pers nid now).mode } with
        state := .OUTLINING, progress := 0.15, mode := (mkInitialJob none nb pers nid now).mode },
      trace := [mkInitialJob none nb pers nid now,
        { mkInitialJob none nb pers nid now with
          state := .PREFLIGHT, progress := 0.1, mode := (mkInitialJob none nb pers nid now).mode },
        { { mkInitialJob none nb pers nid now with
          state := .PREFLIGHT, progress := 0.1, mode := (mkInitialJob none nb pers nid now).mode } with
          state := .OUTLINING, progress := 0.15, mode := (mkInitialJob none nb pers nid now).mode }],
      events := [.remoteOutline, .artwork], audioChunks := [], transcript := [], ttsCalls := 0 }
    (by show (0:Nat) < 5; decide) rfl hpre
  constructor
  · simp only [createPodcastJob]
    split
    · next h =>
      have h' : (false : Bool) = true := h
      cases h'
    · split
      · next h =>
        exfalso
        have h' : (segLoop c1Oracle nb (generateLocalOutline nb) fuel 0
          { currentMode := GenerationMode.OPTIMIZED,
            jobsEntry := { { mkInitialJob none nb pers nid now with
              state := .PREFLIGHT, progress := 0.1, mode := (mkInitialJob none nb pers nid now).mode } with
              state := .OUTLINING, progress := 0.15, mode := (mkInitialJob none nb pers nid now).mode },
            trace := [mkInitialJob none nb pers nid now,
              { mkInitialJob none nb pers nid now with
                state := .PREFLIGHT, progress := 0.1, mode := (mkInitialJob none nb pers nid now).mode },
              { { mkInitialJob none nb pers nid now with
                state := .PREFLIGHT, progress := 0.1, mode := (mkInitialJob none nb pers nid now).mode } with
                state := .OUTLINING, progress := 0.15, mode := (mkInitialJob none nb pers nid now).mode }],
            events := [.remoteOutline, .artwork], audioChunks := [], transcript := [],
            ttsCalls := 0 }).2 = true := h
        rw [hstuck.1] at h'
        cases h'
      · rfl
  · simp only [createPodcastJob]
    split
    · next h =>
      have h' : (false : Bool) = true := h
      cases h'
    · split
      · next h =>
        exfalso
        have h' : (segLoop c1Oracle nb (generateLocalOutline nb) fuel 0
          { currentMode := GenerationMode.OPTIMIZED,
            jobsEntry := { { mkInitialJob none nb pers nid now with
              state := .PREFLIGHT, progress := 0.1, mode := (mkInitialJob none nb pers nid now).mode } with
              state := .OUTLINING, progress := 0.15, mode := (mkInitialJob none nb pers nid now).mode },
            trace := [mkInitialJob none nb pers nid now,
              { mkInitialJob none nb pers nid now with
                state := .PREFLIGHT, progress := 0.1, mode := (mkInitialJob none nb pers nid now).mode },
              { { mkInitialJob none nb pers nid now with
                state := .PREFLIGHT, progress := 0.1, mode := (mkInitialJob none nb pers nid now).mode } with
                state := .OUTLINING, progress := 0.15, mode := (mkInitialJob none nb pers nid now).mode }],
            events := [.remoteOutline, .artwork], audioChunks := [], transcript := [],
            ttsCalls := 0 }).2 = true := h
        rw [hstuck.1] at h'
        cases h'
      · intro j hj
        exact hstuck.2.2 j hj

/-! ## Claim C5: completedChunks versus totalChunks -/

theorem generateLocalOutline_length (nb : Notebook) :
    (generateLocalOutline nb).outline.length = 5 := rfl

theorem outlinePhase_outline_cases (o : Oracle) (nb : Notebook) (cc : Nat)
    (st1 : OrchSt) :
    (outlinePhase o nb cc st1).outline = generateLocalOutline nb ∨
      (outlinePhase o nb cc st1).outline = o.outlineValue := by
  simp only [outlinePhase]
  split
  · split
    · split
      · exact Or.inl rfl
      · exact Or.inr rfl
    · exact Or.inl rfl
  · exact Or.inl rfl

/-- A concrete notebook for concrete runs. -/
def nbW : Notebook := ⟨"nb1", "Vault", [⟨"s1", "A", "aaa"⟩]⟩

/-- A provider whose outline request succeeds with SIX segments and whose
script and synthesis calls all succeed. -/
def c5Oracle : Oracle :=
  { outlineFails := false, outlineMalformed := false,
    outlineValue := ⟨[⟨1, ["a"]⟩, ⟨2, ["b"]⟩, ⟨3, ["c"]⟩, ⟨4, ["d"]⟩,
      ⟨5, ["e"]⟩, ⟨6, ["f"]⟩]⟩,
    artworkValue := none, scriptFails := fun _ => false,
    scriptValue := fun _ => ⟨"", []⟩,
    ttsOutcome := fun _ => some (String.mk (b64Encode [7])) }

/-- C5 counterexample: when the remote outline parses with six segments,
the run publishes a job entry with completedChunks = 6 while totalChunks
is still the initially assumed 5, so completedChunks ≤ totalChunks fails
at a reachable published state. -/
theorem c5_counterexample :
    ((createPodcastJob c5Oracle none nbW .neutral "job-1" 0 6).trace.any
      (fun j => j.totalChunks < j.completedChunks)) = true := by decide

/-- C5 (amended): the invariant holds only under the proviso that the
outline driving the segment loop has at most 5 segments (automatic when
the remote outline fails or the run is resumed, since the local outline
has exactly 5) and that the snapshot being resumed is itself consistent:
then every published entry has completedChunks ≤ totalChunks, and every
non-READY entry's completedChunks equals the count of its committed
audio buffers. -/
theorem c5_amended (o : Oracle) (snapshot : Option PodcastJob) (nb : Notebook)
    (pers : HostPersonality) (nid : String) (now fuel : Nat)
    (hout : o.outlineValue.outline.length ≤ 5)
    (hsnap : ∀ e, snapshot = some e →
      e.completedChunks = ((e.partialAudioBuffers).getD []).length ∧
      e.completedChunks ≤ 5) :
    ∀ j ∈ (createPodcastJob o snapshot nb pers nid now fuel).trace,
      j.completedChunks ≤ j.totalChunks ∧
      (j.state ≠ .READY → ∀ l, j.partialAudioBuffers = some l →
          j.completedChunks = l.length) := by
  have hccI : (mkInitialJob snapshot nb pers nid now).completedChunks ≤ 5 := by
    rw [mkInitialJob_completedChunks]
    cases snapshot with
    | none => simp
    | some e => simpa using (hsnap e rfl).2
  have hbufI : ∀ l, (mkInitialJob snapshot nb pers nid now).partialAudioBuffers = some l →
      (mkInitialJob snapshot nb pers nid now).completedChunks = l.length := by
    intro l hl
    rw [mkInitialJob_partialAudioBuffers, Option.some.injEq] at hl
    rw [mkInitialJob_completedChunks, ← hl]
    cases snapshot with
    | none => rfl
    | some e => simpa using (hsnap e rfl).1
  have h0 : CountOK 5 (⟨(mkInitialJob snapshot nb pers nid now).mode,
      mkInitialJob snapshot nb pers nid now, [mkInitialJob snapshot nb pers nid now],
      [], [], [], 0⟩ : OrchSt) :=
    counts_start _ _
      (le_of_le_of_eq hccI (mkInitialJob_totalChunks snapshot nb pers nid now).symm)
      hbufI hccI (mkInitialJob_totalChunks snapshot nb pers nid now)
  have h1 := countOK_setJobState h0 .PREFLIGHT 0.1
  have h2 := @outlinePhase_counts 5 o nb
    ((mkInitialJob snapshot nb pers nid now).completedChunks) _ h1
  have h3 := counts_stPre
    (((mkInitialJob snapshot nb pers nid now).partialAudioBuffers).getD [])
    (((mkInitialJob snapshot nb pers nid now).partialTranscript).getD []) h2
  have hNT : (outlinePhase o nb ((mkInitialJob snapshot nb pers nid now).completedChunks)
      (setJobState (⟨(mkInitialJob snapshot nb pers nid now).mode,
        mkInitialJob snapshot nb pers nid now, [mkInitialJob snapshot nb pers nid now],
        [], [], [], 0⟩ : OrchSt) .PREFLIGHT 0.1)).outline.outline.length ≤ 5 := by
    rcases outlinePhase_outline_cases o nb
        ((mkInitialJob snapshot nb pers nid now).completedChunks)
        (setJobState (⟨(mkInitialJob snapshot nb pers nid now).mode,
          mkInitialJob snapshot nb pers nid now, [mkInitialJob snapshot nb pers nid now],
          [], [], [], 0⟩ : OrchSt) .PREFLIGHT 0.1) with hcase | hcase
    · rw [hcase]
      exact le_of_eq (generateLocalOutline_length nb)
    · rw [hcase]
      exact hout
  have hACl : ((((mkInitialJob snapshot nb pers nid now).partialAudioBuffers).getD
      []).length) = (mkInitialJob snapshot nb pers nid now).completedChunks := by
    rw [mkInitialJob_partialAudioBuffers, mkInitialJob_completedChunks]
    cases snapshot with
    | none => rfl
    | some e => simpa using ((hsnap e rfl).1).symm
  have h4 := segLoop_counts o nb
    ((outlinePhase o nb ((mkInitialJob snapshot nb pers nid now).completedChunks)
      (setJobState (⟨(mkInitialJob snapshot nb pers nid now).mode,
        mkInitialJob snapshot nb pers nid now, [mkInitialJob snapshot nb pers nid now],
        [], [], [], 0⟩ : OrchSt) .PREFLIGHT 0.1)).outline) 5 hNT fuel
    ((mkInitialJob snapshot nb pers nid now).completedChunks) _ h3 hACl
  have h5 := countOK_setJobState h4 .FINALIZING 0.95
  have h6 := counts_failsafe h5
  have hFS := counts_failsafe h2
  simp only [createPodcastJob]
  split
  · intro j hj
    exact ⟨hFS.1 j hj, hFS.2.1 j hj⟩
  · split
    · split
      · intro j hj
        exact ⟨h6.1 j hj, h6.2.1 j hj⟩
      · intro j hj
        rw [publishJob_trace, List.mem_append] at hj
        rcases hj with hx | hx
        · exact ⟨h5.1 j hx, h5.2.1 j hx⟩
        · rw [List.mem_singleton] at hx
          subst hx
          refine ⟨le_refl _, ?_⟩
          intro hne
          exact absurd rfl hne
    · intro j hj
      exact ⟨h4.1 j hj, h4.2.1 j hj⟩

/-- A provider with a one-segment remote outline, used to instantiate
the amended C5 statement at a concrete input. -/
def c5WOracle : Oracle :=
  { outlineFails := false, outlineMalformed := false, outlineValue := ⟨[⟨1, ["a"]⟩]⟩,
    artworkValue := none, scriptFails := fun _ => false,
    scriptValue := fun _ => ⟨"", []⟩,
    ttsOutcome := fun _ => some (String.mk (b64Encode [7])) }

/-! ## Claim C4: progress bounds and (non-)monotonicity -/

theorem headMem {α : Type} {l : List α} {a : α} (h : l.head? = some a) : a ∈ l := by
  cases l with
  | nil => cases h
  | cons b t =>
    rw [List.head?_cons, Option.some.injEq] at h
    rw [← h]
    exact List.mem_cons_self b t

/-- A provider behaviour whose outline call throws and whose first
speech-synthesis attempt fails, driving the loop through the
OPTIMIZING-retry publish. -/
def c4Oracle : Oracle :=
  { outlineFails := true, outlineMalformed := false, outlineValue := ⟨[]⟩,
    artworkValue := none, scriptFails := fun _ => false,
    scriptValue := fun _ => ⟨"", []⟩, ttsOutcome := fun _ => none }

/-- C4 counterexample: progress is NOT monotonically non-decreasing
across successive published states — on a synthesis failure the loop
publishes OPTIMIZING at 0.25 + i·(0.7/N) and then re-publishes
SCRIPTING at the lower 0.2 + i·(0.7/N) for the same segment. -/
theorem c4_counterexample :
    ¬ List.Chain' (fun a b => a.progress ≤ b.progress)
        (createPodcastJob c4Oracle none nbW .neutral "j1" 0 2).trace := by
  intro hch
  have h56 := (List.chain'_iff_get.mp hch) 5 (by decide)
  have hx : (0.25 + ((0 : Nat) : ℚ) *
        ((0.7 : ℚ) / (((generateLocalOutline nbW).outline.length : Nat) : ℚ))) ≤
      (0.2 + ((0 : Nat) : ℚ) *
        ((0.7 : ℚ) / (((generateLocalOutline nbW).outline.length : Nat) : ℚ))) := h56
  have h5 : (((generateLocalOutline nbW).outline.length : Nat) : ℚ) = 5 := by
    norm_num [generateLocalOutline_length]
  rw [h5] at hx
  norm_num at hx

/-- C4 (amended): for every provider behaviour, snapshot with in-range
progress, and fuel, every published progress value lies in [0, 1]; the
monotonicity half of the claim is false (see the counterexample — the
synthesis-retry, resume and failsafe publishes all lower progress). -/
theorem c4_amended (o : Oracle) (snapshot : Option PodcastJob) (nb : Notebook)
    (pers : HostPersonality) (nid : String) (now fuel : Nat)
    (hsnap : ∀ e, snapshot = some e → 0 ≤ e.progress ∧ e.progress ≤ 1) :
    ∀ j ∈ (createPodcastJob o snapshot nb pers nid now fuel).trace,
      0 ≤ j.progress ∧ j.progress ≤ 1 := by
  have hpI := mkInitialJob_progress_bounds nb pers nid now hsnap
  have h0 : ProgressOK (⟨(mkInitialJob snapshot nb pers nid now).mode,
      mkInitialJob snapshot nb pers nid now, [mkInitialJob snapshot nb pers nid now],
      [], [], [], 0⟩ : OrchSt) := progress_start _ _ hpI
  have h1 := progressOK_setJobState (p := 0.1) h0 (by constructor <;> norm_num) .PREFLIGHT
  have h2 := @outlinePhase_progress o nb
    ((mkInitialJob snapshot nb pers nid now).completedChunks) _ h1
  have h3 := progress_stPre
    (((mkInitialJob snapshot nb pers nid now).partialAudioBuffers).getD [])
    (((mkInitialJob snapshot nb pers nid now).partialTranscript).getD []) h2
  have h4 := segLoop_progress o nb
    ((outlinePhase o nb ((mkInitialJob snapshot nb pers nid now).completedChunks)
      (setJobState (⟨(mkInitialJob snapshot nb pers nid now).mode,
        mkInitialJob snapshot nb pers nid now, [mkInitialJob snapshot nb pers nid now],
        [], [], [], 0⟩ : OrchSt) .PREFLIGHT 0.1)).outline) fuel
    ((mkInitialJob snapshot nb pers nid now).completedChunks) _ h3
  have h5 := progressOK_setJobState (p := 0.95) h4 (by constructor <;> norm_num) .FINALIZING
  have h6 := progress_failsafe h5
  have hFS := progress_failsafe h2
  simp only [createPodcastJob]
  split
  · intro j hj
    exact hFS.1 j hj
  · split
    · split
      · intro j hj
        exact h6.1 j hj
      · intro j hj
        rw [publishJob_trace, List.mem_append] at hj
        rcases hj with hx | hx
        · exact h5.1 j hx
        · rw [List.mem_singleton] at hx
          subst hx
          constructor
          · show (0 : ℚ) ≤ 1
            norm_num
          · show (1 : ℚ) ≤ 1
            norm_num
    · intro j hj
      exact h4.1 j hj

/-- Witness for the amended C4 statement: the bounds instantiated at a
concrete run's first published entry. -/
theorem c4_amended_witness :
    0 ≤ (mkInitialJob none nbW .neutral "j1" 0).progress ∧
      (mkInitialJob none nbW .neutral "j1" 0).progress ≤ 1 :=
  c4_amended c5WOracle none nbW .neutral "j1" 0 3 (fun e h => Option.noConfusion h)
    (mkInitialJob none nbW .neutral "j1" 0)
    (headMem (createPodcastJob_head c5WOracle none nbW .neutral "j1" 0 3))

/-- Witness for the amended C5 statement at a concrete run. -/
theorem c5_amended_witness :
    (c5WOracle.outlineValue.outline.length ≤ 5) ∧
    ∀ j ∈ (createPodcastJob c5WOracle none nbW .neutral "j1" 0 3).trace,
      j.completedChunks ≤ j.totalChunks ∧
      (j.state ≠ .READY → ∀ l, j.partialAudioBuffers = some l →
          j.completedChunks = l.length) :=
  ⟨by decide, c5_amended c5WOracle none nbW .neutral "j1" 0 3 (by decide)
    (fun e h => Option.noConfusion h)⟩


/-! ## Claim C6: resuming skips committed segments -/

theorem segLoop_zero (o : Oracle) (nb : Notebook) (outline : Outline) (i : Nat)
    (st : OrchSt) : (segLoop o nb outline 0 i st).1 = st := by
  simp only [segLoop]
  split <;> rfl

theorem segLoop_ge (o : Oracle) (nb : Notebook) (outline : Outline) (fuel i : Nat)
    (st : OrchSt) (h : ¬ i < outline.outline.length) :
    (segLoop o nb outline fuel i st).1 = st := by
  cases fuel with
  | zero => exact segLoop_zero o nb outline i st
  | succ n =>
    simp only [segLoop]
    rw [if_neg h]

/-- C6: starting a run against a snapshot whose completedChunks is m > 0
(in particular a resumed QUOTA_PAUSED/OPTIMIZING job whose
partialAudioBuffers has length m), no provider call is issued for any
segment below m, and when a script call happens at all the first one is
the remote or local generation call for segment m. -/
theorem c6_resume_starts_at_m (o : Oracle) (e : PodcastJob) (nb : Notebook)
    (pers : HostPersonality) (nid : String) (now fuel m : Nat)
    (hm : e.completedChunks = m) (h0 : 0 < m) :
    (∀ ev ∈ (createPodcastJob o (some e) nb pers nid now fuel).events,
      ∀ k, ev.segIdx? = some k → m ≤ k) ∧
    (∀ ev, (createPodcastJob o (some e) nb pers nid now fuel).events.head? = some ev →
      ev = GenEvent.remoteScript m ∨ ev = GenEvent.localScript m) := by
  have hccI : (mkInitialJob (some e) nb pers nid now).completedChunks = m := by
    rw [mkInitialJob_completedChunks]
    simpa using hm
  have hccne : (mkInitialJob (some e) nb pers nid now).completedChunks ≠ 0 := by
    rw [hccI]
    omega
  have hEV : (createPodcastJob o (some e) nb pers nid now fuel).events =
      (segLoop o nb (generateLocalOutline nb) fuel
        ((mkInitialJob (some e) nb pers nid now).completedChunks)
        { setJobState (⟨(mkInitialJob (some e) nb pers nid now).mode,
            mkInitialJob (some e) nb pers nid now, [mkInitialJob (some e) nb pers nid now],
            [], [], [], 0⟩ : OrchSt) .PREFLIGHT 0.1 with
          audioChunks := ((mkInitialJob (some e) nb pers nid now).partialAudioBuffers).getD []
          transcript := ((mkInitialJob (some e) nb pers nid now).partialTranscript).getD [] }).1.events := by
    simp only [createPodcastJob]
    rw [outlinePhase_cc_ne hccne]
    split
    · next h => simp at h
    · split
      · split
        · rfl
        · rfl
      · rfl
  have hSE : ({ setJobState (⟨(mkInitialJob (some e) nb pers nid now).mode,
      mkInitialJob (some e) nb pers nid now, [mkInitialJob (some e) nb pers nid now],
      [], [], [], 0⟩ : OrchSt) .PREFLIGHT 0.1 with
        audioChunks := ((mkInitialJob (some e) nb pers nid now).partialAudioBuffers).getD []
        transcript := ((mkInitialJob (some e) nb pers nid now).partialTranscript).getD [] } : OrchSt).events = [] := rfl
  constructor
  · intro ev hev k hk
    rw [hEV] at hev
    obtain ⟨rest, hre, hidx⟩ := segLoop_events_pre o nb (generateLocalOutline nb) fuel
      ((mkInitialJob (some e) nb pers nid now).completedChunks)
      { setJobState (⟨(mkInitialJob (some e) nb pers nid now).mode,
          mkInitialJob (some e) nb pers nid now, [mkInitialJob (some e) nb pers nid now],
          [], [], [], 0⟩ : OrchSt) .PREFLIGHT 0.1 with
        audioChunks := ((mkInitialJob (some e) nb pers nid now).partialAudioBuffers).getD []
        transcript := ((mkInitialJob (some e) nb pers nid now).partialTranscript).getD [] }
    rw [hre, hSE, List.nil_append] at hev
    have hle := hidx ev hev k hk
    rw [hccI] at hle
    exact hle
  · intro ev hev
    rw [hEV] at hev
    by_cases hf : 0 < fuel
    · by_cases hmN : m < (generateLocalOutline nb).outline.length
      · obtain ⟨rest2, hre2, hhd⟩ := segLoop_head_event o nb (generateLocalOutline nb) fuel
          ((mkInitialJob (some e) nb pers nid now).completedChunks)
          { setJobState (⟨(mkInitialJob (some e) nb pers nid now).mode,
              mkInitialJob (some e) nb pers nid now, [mkInitialJob (some e) nb pers nid now],
              [], [], [], 0⟩ : OrchSt) .PREFLIGHT 0.1 with
            audioChunks := ((mkInitialJob (some e) nb pers nid now).partialAudioBuffers).getD []
            transcript := ((mkInitialJob (some e) nb pers nid now).partialTranscript).getD [] }
          hf (by rw [hccI]; exact hmN)
        rw [hre2, hSE, List.nil_append] at hev
        rcases hhd with h | h
        · have hev2 : some ev = some (GenEvent.remoteScript
              ((mkInitialJob (some e) nb pers nid now).completedChunks)) := hev.symm.trans h
          rw [Option.some.injEq] at hev2
          subst hev2
          rw [hccI]
          exact Or.inl rfl
        · have hev2 : some ev = some (GenEvent.localScript
              ((mkInitialJob (some e) nb pers nid now).completedChunks)) := hev.symm.trans h
          rw [Option.some.injEq] at hev2
          subst hev2
          rw [hccI]
          exact Or.inr rfl
      · rw [segLoop_ge o nb (generateLocalOutline nb) fuel
          ((mkInitialJob (some e) nb pers nid now).completedChunks) _
          (by rw [hccI]; exact hmN)] at hev
        rw [hSE] at hev
        simp at hev
    · have hf0 : fuel = 0 := by omega
      subst hf0
      rw [segLoop_zero] at hev
      rw [hSE] at hev
      simp at hev

/-- A concrete half-finished snapshot: state OPTIMIZING with 2 of 5
chunks committed. -/
def c6Job : PodcastJob :=
  { jobId := some "job-0", notebookId := some "nb1", state := .OPTIMIZING,
    progress := 0.5, mode := .OPTIMIZED, audio := none, error := none,
    createdAt := some 11, personality := some .neutral, completedChunks := 2,
    totalChunks := 5,
    partialAudioBuffers := some [String.mk (b64Encode [1]), String.mk (b64Encode [2])],
    partialTranscript := some [] }

/-- Witness for C6 at a concrete resumed run: first call is for segment 2. -/
theorem c6_resume_starts_at_m_witness :
    (c6Job.completedChunks = 2 ∧ 0 < 2) ∧
    ((∀ ev ∈ (createPodcastJob c5WOracle (some c6Job) nbW .neutral "j9" 0 3).events,
        ∀ k, ev.segIdx? = some k → 2 ≤ k) ∧
      (∀ ev, (createPodcastJob c5WOracle (some c6Job) nbW .neutral "j9" 0 3).events.head? =
          some ev → ev = GenEvent.remoteScript 2 ∨ ev = GenEvent.localScript 2)) :=
  ⟨⟨rfl, by decide⟩,
    c6_resume_starts_at_m c5WOracle c6Job nbW .neutral "j9" 0 3 2 rfl (by decide)⟩


/-! ## Claim C10: restarting over an existing job -/
theorem segLoop_ge_pair (o : Oracle) (nb : Notebook) (outline : Outline) (fuel i : Nat)
    (st : OrchSt) (h : ¬ i < outline.outline.length) :
    segLoop o nb outline fuel i st = (st, true) := by
  cases fuel with
  | zero =>
    simp only [segLoop]
    rw [if_neg h]
  | succ n =>
    simp only [segLoop]
    rw [if_neg h]

theorem getLast?_append_singleton {α : Type} (l : List α) (a : α) :
    (l ++ [a]).getLast? = some a := by simp

theorem segLoop_events_idx (o : Oracle) (nb : Notebook) (outline : Outline) :
    ∀ fuel i st, ∃ rest,
      (segLoop o nb outline fuel i st).1.events = st.events ++ rest ∧
      (∀ ev ∈ rest, ∃ k, ev.segIdx? = some k ∧ i ≤ k) := by
  intro fuel i st
  induction fuel, i, st using segLoop.induct o nb outline with
  | case1 i st hiN =>
    refine ⟨[], ?_, by simp⟩
    simp [segLoop, hiN]
  | case2 i st hiN =>
    refine ⟨[], ?_, by simp⟩
    simp [segLoop, hiN]
  | case3 fuel i st hiN N st1 sc st3 st4 audioBase64 heq chunks tr committed st5 IH =>
    obtain ⟨A, hA, hAidx, _⟩ := scriptStep_fst_events o nb outline i st1
    obtain ⟨rest', h1, h2⟩ := IH
    refine ⟨A ++ [GenEvent.tts i] ++ rest', ?_, ?_⟩
    · unfold st5 committed tr chunks st4 st3 sc st1 N at h1
      unfold st3 sc st1 N at heq
      unfold st1 at hA
      simp only [segLoop]
      rw [if_pos hiN, heq, h1]
      simp [hA]
    · intro ev hev
      simp only [List.mem_append] at hev
      rcases hev with (hev | hev) | hev
      · exact ⟨i, hAidx ev hev, le_refl i⟩
      · rw [List.mem_singleton] at hev
        subst hev
        exact ⟨i, rfl, le_refl i⟩
      · obtain ⟨k, hk, hik⟩ := h2 ev hev
        exact ⟨k, hk, by omega⟩
  | case4 fuel i st hiN N st1 sc st3 st4 heq st5 IH =>
    obtain ⟨A, hA, hAidx, _⟩ := scriptStep_fst_events o nb outline i st1
    obtain ⟨rest', h1, h2⟩ := IH
    refine ⟨A ++ [GenEvent.tts i] ++ rest', ?_, ?_⟩
    · unfold st5 st4 st3 sc st1 N at h1
      unfold st3 sc st1 N at heq
      unfold st1 at hA
      simp only [segLoop]
      rw [if_pos hiN, heq, h1]
      simp [hA]
    · intro ev hev
      simp only [List.mem_append] at hev
      rcases hev with (hev | hev) | hev
      · exact ⟨i, hAidx ev hev, le_refl i⟩
      · rw [List.mem_singleton] at hev
        subst hev
        exact ⟨i, rfl, le_refl i⟩
      · exact h2 ev hev
  | case5 fuel i st hiN =>
    refine ⟨[], ?_, by simp⟩
    simp [segLoop, hiN]

/-- The context in which the segment loop starts. -/
def startCtx (snapshot : Option PodcastJob) (nb : Notebook) (pers : HostPersonality)
    (nid : String) (now : Nat) : OrchSt :=
  { setJobState (⟨(mkInitialJob snapshot nb pers nid now).mode,
      mkInitialJob snapshot nb pers nid now, [mkInitialJob snapshot nb pers nid now],
      [], [], [], 0⟩ : OrchSt) .PREFLIGHT 0.1 with
    audioChunks := ((mkInitialJob snapshot nb pers nid now).partialAudioBuffers).getD []
    transcript := ((mkInitialJob snapshot nb pers nid now).partialTranscript).getD [] }

/-- C10: a run started against ANY existing job with completedChunks =
c > 0 — including a terminal READY job, not only soft-paused/OPTIMIZING
ones — publishes as its first entry the initial job carrying the
snapshot's completedChunks, partialAudioBuffers and partialTranscript;
uses the local 5-segment outline regardless of mode (the outline phase
is skipped); issues only provider calls with segment index at least c;
and when c ≥ 5 issues no call at all, completing by simply re-merging
the prior buffers into the READY publish when they decode. -/
theorem c10_restart_uses_existing (o : Oracle) (e : PodcastJob) (nb : Notebook)
    (pers : HostPersonality) (nid : String) (now fuel c : Nat)
    (hc : e.completedChunks = c) (h0 : 0 < c) :
    ((createPodcastJob o (some e) nb pers nid now fuel).trace.head? =
        some (mkInitialJob (some e) nb pers nid now) ∧
      (mkInitialJob (some e) nb pers nid now).completedChunks = c ∧
      (mkInitialJob (some e) nb pers nid now).partialAudioBuffers =
        some ((e.partialAudioBuffers).getD []) ∧
      (mkInitialJob (some e) nb pers nid now).partialTranscript =
        some ((e.partialTranscript).getD [])) ∧
    (createPodcastJob o (some e) nb pers nid now fuel).outlineUsed =
      generateLocalOutline nb ∧
    (∀ ev ∈ (createPodcastJob o (some e) nb pers nid now fuel).events,
      ∃ k, ev.segIdx? = some k ∧ c ≤ k) ∧
    (¬ c < 5 →
      (createPodcastJob o (some e) nb pers nid now fuel).events = [] ∧
      ∀ dd, decodeAll ((e.partialAudioBuffers).getD []) = some dd →
        (createPodcastJob o (some e) nb pers nid now fuel).completed = true ∧
        ((createPodcastJob o (some e) nb pers nid now fuel).trace.getLast?.map
          (fun j => (j.state, j.audio.map (fun a => a.audio)))) =
          some (PodcastJobState.READY, some (String.mk (b64Encode dd.flatten)))) := by
  have hccI : (mkInitialJob (some e) nb pers nid now).completedChunks = c := by
    rw [mkInitialJob_completedChunks]
    simpa using hc
  have hccne : (mkInitialJob (some e) nb pers nid now).completedChunks ≠ 0 := by
    rw [hccI]
    omega
  have hEV : (createPodcastJob o (some e) nb pers nid now fuel).events =
      (segLoop o nb (generateLocalOutline nb) fuel
        ((mkInitialJob (some e) nb pers nid now).completedChunks)
        (startCtx (some e) nb pers nid now)).1.events := by
    simp only [createPodcastJob]
    rw [outlinePhase_cc_ne hccne]
    split
    · next h => simp at h
    · split
      · split
        · rfl
        · rfl
      · rfl
  refine ⟨⟨createPodcastJob_head o (some e) nb pers nid now fuel, hccI, rfl, rfl⟩, ?_, ?_, ?_⟩
  · simp only [createPodcastJob]
    rw [outlinePhase_cc_ne hccne]
    split
    · rfl
    · split
      · split
        · rfl
        · rfl
      · rfl
  · intro ev hev
    rw [hEV] at hev
    obtain ⟨rest, hre, hidx⟩ := segLoop_events_idx o nb (generateLocalOutline nb) fuel
      ((mkInitialJob (some e) nb pers nid now).completedChunks)
      (startCtx (some e) nb pers nid now)
    have hSE : (startCtx (some e) nb pers nid now).events = [] := rfl
    rw [hre, hSE, List.nil_append] at hev
    obtain ⟨k, hk, hik⟩ := hidx ev hev
    rw [hccI] at hik
    exact ⟨k, hk, hik⟩
  · intro hge
    have hres : segLoop o nb (generateLocalOutline nb) fuel
        ((mkInitialJob (some e) nb pers nid now).completedChunks)
        (startCtx (some e) nb pers nid now) = (startCtx (some e) nb pers nid now, true) :=
      segLoop_ge_pair o nb (generateLocalOutline nb) fuel
        ((mkInitialJob (some e) nb pers nid now).completedChunks)
        (startCtx (some e) nb pers nid now)
        (by rw [hccI, generateLocalOutline_length]; exact hge)
    constructor
    · rw [hEV, hres]
      rfl
    · intro dd hdd
      constructor
      · simp only [createPodcastJob]
        rw [outlinePhase_cc_ne hccne]
        split
        · next h => simp at h
        · split
          · split
            · next heqd =>
              exfalso
              have hD : decodeAll ((setJobState (segLoop o nb (generateLocalOutline nb) fuel
                  ((mkInitialJob (some e) nb pers nid now).completedChunks)
                  (startCtx (some e) nb pers nid now)).1 .FINALIZING 0.95).audioChunks)
                  = none := heqd
              rw [hres] at hD
              have hD2 : decodeAll ((e.partialAudioBuffers).getD []) = none := hD
              rw [hdd] at hD2
              cases hD2
            · rfl
          · next h =>
            exfalso
            have h2 : ¬ (segLoop o nb (generateLocalOutline nb) fuel
                ((mkInitialJob (some e) nb pers nid now).completedChunks)
                (startCtx (some e) nb pers nid now)).2 = true := h
            rw [hres] at h2
            exact h2 rfl
      · simp only [createPodcastJob]
        rw [outlinePhase_cc_ne hccne]
        split
        · next h => simp at h
        · split
          · split
            · next heqd =>
              exfalso
              have hD : decodeAll ((setJobState (segLoop o nb (generateLocalOutline nb) fuel
                  ((mkInitialJob (some e) nb pers nid now).completedChunks)
                  (startCtx (some e) nb pers nid now)).1 .FINALIZING 0.95).audioChunks)
                  = none := heqd
              rw [hres] at hD
              have hD2 : decodeAll ((e.partialAudioBuffers).getD []) = none := hD
              rw [hdd] at hD2
              cases hD2
            · next d heqd =>
              have hD : decodeAll ((setJobState (segLoop o nb (generateLocalOutline nb) fuel
                  ((mkInitialJob (some e) nb pers nid now).completedChunks)
                  (startCtx (some e) nb pers nid now)).1 .FINALIZING 0.95).audioChunks)
                  = some d := heqd
              rw [hres] at hD
              have hD2 : decodeAll ((e.partialAudioBuffers).getD []) = some d := hD
              rw [hdd] at hD2
              rw [Option.some.injEq] at hD2
              subst hD2
              rw [publishJob_trace, getLast?_append_singleton, Option.map_some']
              rfl
          · next h =>
            exfalso
            have h2 : ¬ (segLoop o nb (generateLocalOutline nb) fuel
                ((mkInitialJob (some e) nb pers nid now).completedChunks)
                (startCtx (some e) nb pers nid now)).2 = true := h
            rw [hres] at h2
            exact h2 rfl

/-- A prior READY job with all 5 chunks committed. -/
def c10Job : PodcastJob :=
  { c6Job with state := .READY, completedChunks := 5 }

/-- Witness for C10: restarting over a READY 5-of-5 snapshot regenerates
nothing. -/
theorem c10_restart_uses_existing_witness :
    (c10Job.completedChunks = 5 ∧ 0 < 5) ∧
    (((createPodcastJob c5WOracle (some c10Job) nbW .neutral "j9" 0 0).trace.head? =
        some (mkInitialJob (some c10Job) nbW .neutral "j9" 0) ∧
      (mkInitialJob (some c10Job) nbW .neutral "j9" 0).completedChunks = 5 ∧
      (mkInitialJob (some c10Job) nbW .neutral "j9" 0).partialAudioBuffers =
        some ((c10Job.partialAudioBuffers).getD []) ∧
      (mkInitialJob (some c10Job) nbW .neutral "j9" 0).partialTranscript =
        some ((c10Job.partialTranscript).getD [])) ∧
    (createPodcastJob c5WOracle (some c10Job) nbW .neutral "j9" 0 0).outlineUsed =
      generateLocalOutline nbW ∧
    (∀ ev ∈ (createPodcastJob c5WOracle (some c10Job) nbW .neutral "j9" 0 0).events,
      ∃ k, ev.segIdx? = some k ∧ 5 ≤ k) ∧
    (¬ 5 < 5 →
      (createPodcastJob c5WOracle (some c10Job) nbW .neutral "j9" 0 0).events = [] ∧
      ∀ dd, decodeAll ((c10Job.partialAudioBuffers).getD []) = some dd →
        (createPodcastJob c5WOracle (some c10Job) nbW .neutral "j9" 0 0).completed = true ∧
        ((createPodcastJob c5WOracle (some c10Job) nbW .neutral "j9" 0 0).trace.getLast?.map
          (fun j => (j.state, j.audio.map (fun a => a.audio)))) =
          some (PodcastJobState.READY, some (String.mk (b64Encode dd.flatten))))) :=
  ⟨⟨rfl, by decide⟩,
    c10_restart_uses_existing c5WOracle c10Job nbW .neutral "j9" 0 0 5 rfl (by decide)⟩

end AKS
